import Mathlib

/-!
Verification development for the expeer binary-analysis pipeline.

Shallow embedding of the Go source:
  * `pkg/disasm/patterns.go`  — `EnhancedDecodeInstruction`, `decodeModRMDetailed`,
    `regName8`, `regName64`, `jccMnemonic`
  * `pkg/disasm/capstone.go`  — `decodeInstruction`, `DisassembleSection` sweep,
    `FindFunctions`, `isPaddingOrData`, `isPaddingSequence`
  * `pkg/cfg/builder.go`      — `identifyLeaders`, `createBasicBlocks`,
    `connectBlocks`, `computeDominators`, `intersectDominators`
  * cfg block/loop files      — `AddSuccessor`, `Dominates`, `DetectLoops` pieces
  * decompiler                — `Decompile`

Go byte slices are `List Nat` (each element an octet value), Go `uint64` is `Nat`
with explicit wrap-around at `2 ^ 64` where the Go arithmetic wraps, Go strings are
`String`.  A Go function that can panic (index out of range) is embedded as
`Except Unit _`, where `.error ()` marks the panic.  A Go loop with no bound in the
source is embedded with an explicit fuel argument; theorems about divergence prove
a statement for every fuel value.
-/

namespace Expeer

/-- InstructionCategory from the Go source; constructor order matches the Go
`iota` order, so `CatUnknown` is the zero value. -/
inductive Category where
  | CatUnknown
  | CatDataTransfer
  | CatArithmetic
  | CatLogical
  | CatCompare
  | CatCall
  | CatReturn
  | CatJump
  | CatStack
  | CatInterrupt
  | CatNop
  | CatOther
  deriving Repr, DecidableEq, BEq, Inhabited

export Category (CatUnknown CatDataTransfer CatArithmetic CatLogical CatCompare
  CatCall CatReturn CatJump CatStack CatInterrupt CatNop CatOther)

/-- Instruction record from the Go source (fields the core reads or writes). -/
structure Instruction where
  Address : Nat := 0
  Bytes : List Nat := []
  Mnemonic : String := ""
  Operands : String := ""
  Size : Nat := 0
  Category : Category := CatUnknown
  RegsRead : List String := []
  RegsWritten : List String := []
  IsConditional : Bool := false
  IsBranch : Bool := false
  BranchTarget : Nat := 0
  FallsThrough : Bool := false
  deriving Repr, DecidableEq, BEq, Inhabited

/-- Go `Instruction{}` zero value, returned together with size 0 on decode failure. -/
def Instruction.empty : Instruction := {}

/-- IsControlFlow from the Go source. -/
def Instruction.IsControlFlow (i : Instruction) : Bool :=
  i.Category == CatCall || i.Category == CatReturn || i.Category == CatJump

/-- IsTerminator from the Go source. -/
def Instruction.IsTerminator (i : Instruction) : Bool :=
  i.Category == CatReturn || i.Category == CatJump || i.Category == CatCall

/-- Lowercase hex digit, as Go `%x` formatting produces. -/
def hexDigitChar (n : Nat) : Char :=
  if n = 0 then '0' else if n = 1 then '1' else if n = 2 then '2'
  else if n = 3 then '3' else if n = 4 then '4' else if n = 5 then '5'
  else if n = 6 then '6' else if n = 7 then '7' else if n = 8 then '8'
  else if n = 9 then '9' else if n = 10 then 'a' else if n = 11 then 'b'
  else if n = 12 then 'c' else if n = 13 then 'd' else if n = 14 then 'e'
  else 'f'

/-- Accumulator for hex printing, most significant digit first; the first
argument is fuel (structural recursion so that concrete values reduce in the
kernel), and `fuel = n` always suffices since `n / 16 < n` for `n ≠ 0`. -/
def natToHexAux : Nat → Nat → List Char → List Char
  | 0, _, acc => acc
  | fuel + 1, n, acc =>
    if n = 0 then acc
    else natToHexAux fuel (n / 16) (hexDigitChar (n % 16) :: acc)

/-- Go `fmt.Sprintf("%x", n)` for an unsigned value. -/
def natToHex (n : Nat) : String :=
  if n = 0 then "0" else String.mk (natToHexAux n n [])

/-- Go `fmt.Sprintf("%02x", n)`: hex padded to at least two digits. -/
def natToHex2 (n : Nat) : String :=
  let s := natToHex n
  if s.length < 2 then "0" ++ s else s

/-- Go `fmt.Sprintf("%x", i)` for a signed value (prints a minus sign). -/
def intToHex (i : Int) : String :=
  if i < 0 then "-" ++ natToHex i.natAbs else natToHex i.toNat

/-- Reinterpretation of a byte as Go `int8`. -/
def int8val (b : Nat) : Int :=
  if b < 128 then (b : Int) else (b : Int) - 256

/-- Reinterpretation of a 32-bit value as Go `int32`. -/
def int32val (x : Nat) : Int :=
  if x < 2 ^ 31 then (x : Int) else (x : Int) - 2 ^ 32

/-- Wrap an integer to Go `uint64`. -/
def wrap64 (x : Int) : Nat := (x % (2 ^ 64 : Int)).toNat

/-- Wrap an integer to Go `uint32`. -/
def wrap32 (x : Int) : Nat := (x % (2 ^ 32 : Int)).toNat

/-- Go `binary.LittleEndian.Uint16` of the first two list elements. -/
def le16 (data : List Nat) : Nat :=
  data.getD 0 0 + data.getD 1 0 * 256

/-- Go `binary.LittleEndian.Uint32` of the first four list elements. -/
def le32 (data : List Nat) : Nat :=
  data.getD 0 0 + data.getD 1 0 * 256 + data.getD 2 0 * 65536 + data.getD 3 0 * 16777216

/-- regName8 from the Go source. -/
def regName8 (n : Nat) : String :=
  (["al", "cl", "dl", "bl", "ah", "ch", "dh", "bh"].getD n ("r" ++ toString n ++ "b"))

/-- regName64 from the Go source: 64-bit register names when `is64`, else 32-bit. -/
def regName64 (n : Nat) (is64 : Bool) : String :=
  if is64 then
    ["rax", "rcx", "rdx", "rbx", "rsp", "rbp", "rsi", "rdi"].getD n ("r" ++ toString n)
  else
    ["eax", "ecx", "edx", "ebx", "esp", "ebp", "esi", "edi"].getD n ("r" ++ toString n ++ "d")

/-- jccMnemonic from the Go source. -/
def jccMnemonic (opcode : Nat) : String :=
  let cc := opcode &&& 0x0F
  ["jo", "jno", "jb", "jae", "je", "jne", "jbe", "ja",
   "js", "jns", "jp", "jnp", "jl", "jge", "jle", "jg"].getD cc
    ("jcc_" ++ natToHex cc)

/-- decodeModRMDetailed from the Go source.  In the `mod = 1` arm the Go code
reads `data[0]` with no bounds check, so an empty remainder panics: that outcome
is `.error ()`. -/
def decodeModRMDetailed (modrm : Nat) (data : List Nat) (is64 : Bool) :
    Except Unit (String × String) :=
  let mod := (modrm >>> 6) &&& 0x3
  let reg := (modrm >>> 3) &&& 0x7
  let rm := modrm &&& 0x7
  let regStr := regName64 reg is64
  let rmStr := regName64 rm is64
  if mod = 0 then .ok ("[" ++ rmStr ++ "]", regStr)
  else if mod = 1 then
    match data with
    | [] => .error ()
    | b :: _ => .ok ("[" ++ rmStr ++ "+0x" ++ natToHex b ++ "]", regStr)
  else if mod = 2 then
    if 4 ≤ data.length then
      .ok ("[" ++ rmStr ++ "+0x" ++ natToHex (le32 data) ++ "]", regStr)
    else .ok ("[" ++ rmStr ++ "+disp32]", regStr)
  else .ok (rmStr, regStr)

/-- Prefix-consuming loop at the top of `EnhancedDecodeInstruction`: consumes
legacy prefixes while `offset < len(data) && offset < 4`; a REX byte
(64-bit mode only) is consumed, records its W bit and ends the scan; any other
byte ends the scan.  The fuel argument carries the invariant
`fuel = 4 - offset` (so fuel 0 means `offset < 4` has failed), keeping the
recursion structural. -/
def scanPrefixesAux (data : List Nat) (is64 : Bool) :
    Nat → Nat → Bool → Nat × Bool
  | 0, offset, rexW => (offset, rexW)
  | fuel + 1, offset, rexW =>
    if offset < data.length then
      let b := data.getD offset 0
      if b = 0xF0 ∨ b = 0xF2 ∨ b = 0xF3 ∨ b = 0x2E ∨ b = 0x36 ∨ b = 0x3E ∨
         b = 0x26 ∨ b = 0x64 ∨ b = 0x65 ∨ b = 0x66 ∨ b = 0x67 then
        scanPrefixesAux data is64 fuel (offset + 1) rexW
      else if is64 ∧ 0x40 ≤ b ∧ b ≤ 0x4F then
        (offset + 1, b &&& 0x08 ≠ 0)
      else (offset, rexW)
    else (offset, rexW)

/-- Result of the prefix loop: offset of the opcode byte and the REX.W flag. -/
def scanPrefixes (data : List Nat) (is64 : Bool) (offset : Nat) (rexW : Bool) :
    Nat × Bool :=
  scanPrefixesAux data is64 (4 - offset) offset rexW

/-- Epilogue shared by every arm of the opcode switch: store the size, and the
raw bytes when `0 < size ≤ len(data)`. -/
def finishInst (data : List Nat) (inst : Instruction) (offset : Nat) :
    Except Unit (Instruction × Nat) :=
  .ok ({ inst with
          Size := offset,
          Bytes := if 0 < offset ∧ offset ≤ data.length then data.take offset else [] },
       offset)

/-- Nested switch on the second opcode byte of the `0x0F` two-byte arm of
`EnhancedDecodeInstruction`; `offset` already points past the second byte. -/
def decodeTwoByte (data : List Nat) (inst : Instruction) (rexW : Bool)
    (opcode2 offset : Nat) : Except Unit (Instruction × Nat) :=
  match opcode2 with
  | 0x80 | 0x81 | 0x82 | 0x83 | 0x84 | 0x85 | 0x86 | 0x87
  | 0x88 | 0x89 | 0x8A | 0x8B | 0x8C | 0x8D | 0x8E | 0x8F =>
    if data.length < offset + 4 then .ok (Instruction.empty, 0) else
    let rel := int32val (le32 (data.drop offset))
    let target := wrap64 ((inst.Address : Int) + ((offset + 4 : Nat) : Int) + rel)
    finishInst data
      { inst with Mnemonic := jccMnemonic (opcode2 - 0x10),
                  Operands := "0x" ++ natToHex target,
                  Category := CatJump, IsConditional := true, IsBranch := true,
                  BranchTarget := target, FallsThrough := true } (offset + 4)
  | 0x90 | 0x91 | 0x92 | 0x93 | 0x94 | 0x95 | 0x96 | 0x97
  | 0x98 | 0x99 | 0x9A | 0x9B | 0x9C | 0x9D | 0x9E | 0x9F =>
    if data.length ≤ offset then .ok (Instruction.empty, 0) else
    finishInst data
      { inst with Mnemonic := "set" ++ (jccMnemonic (opcode2 - 0x90)).drop 1,
                  Category := CatDataTransfer } (offset + 1)
  | 0x40 | 0x41 | 0x42 | 0x43 | 0x44 | 0x45 | 0x46 | 0x47
  | 0x48 | 0x49 | 0x4A | 0x4B | 0x4C | 0x4D | 0x4E | 0x4F =>
    if data.length ≤ offset then .ok (Instruction.empty, 0) else
    finishInst data
      { inst with Mnemonic := "cmov" ++ (jccMnemonic (opcode2 - 0x40)).drop 1,
                  Category := CatDataTransfer } (offset + 1)
  | 0xB6 | 0xB7 =>
    if data.length ≤ offset then .ok (Instruction.empty, 0) else
    finishInst data { inst with Mnemonic := "movzx", Category := CatDataTransfer } (offset + 1)
  | 0xBE | 0xBF =>
    if data.length ≤ offset then .ok (Instruction.empty, 0) else
    finishInst data { inst with Mnemonic := "movsx", Category := CatDataTransfer } (offset + 1)
  | 0xBC | 0xBD =>
    if data.length ≤ offset then .ok (Instruction.empty, 0) else
    finishInst data
      { inst with Mnemonic := if opcode2 = 0xBC then "bsf" else "bsr",
                  Category := CatLogical } (offset + 1)
  | 0xA3 => finishInst data { inst with Mnemonic := "bt", Category := CatLogical } offset
  | 0xAB => finishInst data { inst with Mnemonic := "bts", Category := CatLogical } offset
  | 0xB3 => finishInst data { inst with Mnemonic := "btr", Category := CatLogical } offset
  | 0xBB => finishInst data { inst with Mnemonic := "btc", Category := CatLogical } offset
  | 0xAF =>
    if data.length ≤ offset then .ok (Instruction.empty, 0) else
    finishInst data { inst with Mnemonic := "imul", Category := CatArithmetic } (offset + 1)
  | 0xC0 | 0xC1 =>
    if data.length ≤ offset then .ok (Instruction.empty, 0) else
    finishInst data { inst with Mnemonic := "xadd", Category := CatArithmetic } (offset + 1)
  | 0xB0 | 0xB1 =>
    if data.length ≤ offset then .ok (Instruction.empty, 0) else
    finishInst data { inst with Mnemonic := "cmpxchg", Category := CatArithmetic } (offset + 1)
  | 0xC8 | 0xC9 | 0xCA | 0xCB | 0xCC | 0xCD | 0xCE | 0xCF =>
    finishInst data
      { inst with Mnemonic := "bswap", Operands := regName64 (opcode2 - 0xC8) rexW,
                  Category := CatDataTransfer } offset
  | 0x6E | 0x7E =>
    if data.length ≤ offset then .ok (Instruction.empty, 0) else
    finishInst data { inst with Mnemonic := "movd", Category := CatDataTransfer } (offset + 1)
  | 0x10 | 0x11 | 0x28 | 0x29 =>
    if data.length ≤ offset then .ok (Instruction.empty, 0) else
    finishInst data
      { inst with Mnemonic := if opcode2 = 0x10 ∨ opcode2 = 0x11 then "movups" else "movaps",
                  Category := CatDataTransfer } (offset + 1)
  | 0x57 =>
    if data.length ≤ offset then .ok (Instruction.empty, 0) else
    finishInst data { inst with Mnemonic := "xorps", Category := CatLogical } (offset + 1)
  | 0x58 | 0x59 | 0x5C | 0x5D | 0x5E | 0x5F =>
    if data.length ≤ offset then .ok (Instruction.empty, 0) else
    finishInst data
      { inst with
          Mnemonic :=
            if opcode2 = 0x58 then "addps" else if opcode2 = 0x59 then "mulps"
            else if opcode2 = 0x5C then "subps" else if opcode2 = 0x5D then "minps"
            else if opcode2 = 0x5E then "divps" else "maxps",
          Category := CatArithmetic } (offset + 1)
  | 0x74 | 0x75 | 0x76 =>
    if data.length ≤ offset then .ok (Instruction.empty, 0) else
    finishInst data { inst with Mnemonic := "pcmpeq", Category := CatCompare } (offset + 1)
  | 0xC3 =>
    if data.length ≤ offset then .ok (Instruction.empty, 0) else
    finishInst data { inst with Mnemonic := "movnti", Category := CatDataTransfer } (offset + 1)
  | 0x18 =>
    if data.length ≤ offset then .ok (Instruction.empty, 0) else
    finishInst data { inst with Mnemonic := "prefetch", Category := CatOther } (offset + 1)
  | 0x0B => finishInst data { inst with Mnemonic := "ud2", Category := CatInterrupt } offset
  | 0xAE =>
    if data.length ≤ offset then .ok (Instruction.empty, 0) else
    let modrm := data.getD offset 0
    let reg := (modrm >>> 3) &&& 0x7
    finishInst data
      { inst with
          Mnemonic :=
            if reg = 5 then "lfence" else if reg = 6 then "mfence"
            else if reg = 7 then "sfence" else "0f_ae",
          Category := CatOther } (offset + 1)
  | 0x1F | 0x0D =>
    finishInst data { inst with Mnemonic := "nop", Category := CatNop }
      (if offset < data.length then offset + 1 else offset)
  | _ =>
    finishInst data
      { inst with Mnemonic := "0f_" ++ natToHex2 opcode2, Category := CatUnknown } offset

/-- Shared shape of the Go arms that bounds-check and read a ModR/M byte, run
`decodeModRMDetailed` on the remainder and format the two operands
("src, dest" when `swap`, matching the `opcode&0x02 != 0` direction test). -/
def modRMArm (data : List Nat) (inst : Instruction) (rexW : Bool) (offset : Nat)
    (mn : String) (cat : Category) (swap : Bool) : Except Unit (Instruction × Nat) :=
  if data.length ≤ offset then .ok (Instruction.empty, 0) else
  let modrm := data.getD offset 0
  let offset := offset + 1
  match decodeModRMDetailed modrm (data.drop offset) rexW with
  | .error e => .error e
  | .ok (dest, src) =>
    finishInst data
      { inst with Mnemonic := mn, Category := cat,
                  Operands := if swap then src ++ ", " ++ dest else dest ++ ", " ++ src }
      offset

/-- Segment register table of the `0x8C`/`0x8E` arms. -/
def sregs : List String := ["es", "cs", "ss", "ds", "fs", "gs", "seg6", "seg7"]

set_option maxHeartbeats 3200000

/-- Arms of the Go opcode switch for opcodes `0x00`-`0x0F` (bucket 0 of
the dispatch in `decodeOpcode`); the default arm is the switch's default
(`unk_xx`). -/
def decodeOpN0 (data : List Nat) (addr : Nat) (is64 rexW : Bool)
    (opcode offset : Nat) : Except Unit (Instruction × Nat) :=
  let inst : Instruction := { Address := addr }
  match opcode with
  | 0x01 | 0x03 =>
    modRMArm data inst rexW offset "add" CatArithmetic (opcode &&& 0x02 ≠ 0)
  | 0x09 | 0x0B =>
    modRMArm data inst rexW offset "or" CatLogical (opcode &&& 0x02 ≠ 0)
  | 0x0F =>
    if data.length ≤ offset then .ok (Instruction.empty, 0) else
    decodeTwoByte data inst rexW (data.getD offset 0) (offset + 1)
  | 0x00 =>
    modRMArm data inst rexW offset "add" CatArithmetic false
  | 0x02 =>
    modRMArm data inst rexW offset "add" CatArithmetic true
  | 0x08 =>
    modRMArm data inst rexW offset "or" CatLogical false
  | 0x0A =>
    modRMArm data inst rexW offset "or" CatLogical true
  | 0x04 =>
    if data.length ≤ offset then .ok (Instruction.empty, 0) else
    finishInst data
      { inst with Mnemonic := "add",
                  Operands := "al, 0x" ++ natToHex (data.getD offset 0),
                  Category := CatArithmetic } (offset + 1)
  | 0x0C =>
    if data.length ≤ offset then .ok (Instruction.empty, 0) else
    finishInst data
      { inst with Mnemonic := "or",
                  Operands := "al, 0x" ++ natToHex (data.getD offset 0),
                  Category := CatLogical } (offset + 1)
  | 0x05 =>
    if data.length < offset + 4 then .ok (Instruction.empty, 0) else
    finishInst data
      { inst with Mnemonic := "add",
                  Operands := "eax, 0x" ++ natToHex (le32 (data.drop offset)),
                  Category := CatArithmetic } (offset + 4)
  | 0x0D =>
    if data.length < offset + 4 then .ok (Instruction.empty, 0) else
    finishInst data
      { inst with Mnemonic := "or",
                  Operands := "eax, 0x" ++ natToHex (le32 (data.drop offset)),
                  Category := CatLogical } (offset + 4)
  | 0x06 =>
    finishInst data
      { inst with Mnemonic := "push", Operands := "es", Category := CatStack } offset
  | 0x07 =>
    finishInst data
      { inst with Mnemonic := "pop", Operands := "es", Category := CatStack } offset
  | 0x0E =>
    finishInst data
      { inst with Mnemonic := "push", Operands := "cs", Category := CatStack } offset
  | _ =>
    finishInst data
      { inst with Mnemonic := "unk_" ++ natToHex2 opcode, Category := CatUnknown } offset

/-- Arms of the Go opcode switch for opcodes `0x10`-`0x1F` (bucket 1 of
the dispatch in `decodeOpcode`); the default arm is the switch's default
(`unk_xx`). -/
def decodeOpN1 (data : List Nat) (addr : Nat) (is64 rexW : Bool)
    (opcode offset : Nat) : Except Unit (Instruction × Nat) :=
  let inst : Instruction := { Address := addr }
  match opcode with
  | 0x10 | 0x11 =>
    modRMArm data inst rexW offset "adc" CatArithmetic false
  | 0x12 | 0x13 =>
    modRMArm data inst rexW offset "adc" CatArithmetic true
  | 0x18 | 0x19 =>
    modRMArm data inst rexW offset "sbb" CatArithmetic false
  | 0x1A | 0x1B =>
    modRMArm data inst rexW offset "sbb" CatArithmetic true
  | 0x14 =>
    if data.length ≤ offset then .ok (Instruction.empty, 0) else
    finishInst data
      { inst with Mnemonic := "adc",
                  Operands := "al, 0x" ++ natToHex (data.getD offset 0),
                  Category := CatArithmetic } (offset + 1)
  | 0x1C =>
    if data.length ≤ offset then .ok (Instruction.empty, 0) else
    finishInst data
      { inst with Mnemonic := "sbb",
                  Operands := "al, 0x" ++ natToHex (data.getD offset 0),
                  Category := CatArithmetic } (offset + 1)
  | 0x15 =>
    if data.length < offset + 4 then .ok (Instruction.empty, 0) else
    finishInst data
      { inst with Mnemonic := "adc",
                  Operands := "eax, 0x" ++ natToHex (le32 (data.drop offset)),
                  Category := CatArithmetic } (offset + 4)
  | 0x1D =>
    if data.length < offset + 4 then .ok (Instruction.empty, 0) else
    finishInst data
      { inst with Mnemonic := "sbb",
                  Operands := "eax, 0x" ++ natToHex (le32 (data.drop offset)),
                  Category := CatArithmetic } (offset + 4)
  | 0x16 =>
    finishInst data
      { inst with Mnemonic := "push", Operands := "ss", Category := CatStack } offset
  | 0x17 =>
    finishInst data
      { inst with Mnemonic := "pop", Operands := "ss", Category := CatStack } offset
  | 0x1E =>
    finishInst data
      { inst with Mnemonic := "push", Operands := "ds", Category := CatStack } offset
  | 0x1F =>
    finishInst data
      { inst with Mnemonic := "pop", Operands := "ds", Category := CatStack } offset
  | _ =>
    finishInst data
      { inst with Mnemonic := "unk_" ++ natToHex2 opcode, Category := CatUnknown } offset

/-- Arms of the Go opcode switch for opcodes `0x20`-`0x2F` (bucket 2 of
the dispatch in `decodeOpcode`); the default arm is the switch's default
(`unk_xx`). -/
def decodeOpN2 (data : List Nat) (addr : Nat) (is64 rexW : Bool)
    (opcode offset : Nat) : Except Unit (Instruction × Nat) :=
  let inst : Instruction := { Address := addr }
  match opcode with
  | 0x29 | 0x2B =>
    modRMArm data inst rexW offset "sub" CatArithmetic (opcode &&& 0x02 ≠ 0)
  | 0x21 | 0x23 =>
    modRMArm data inst rexW offset "and" CatLogical (opcode &&& 0x02 ≠ 0)
  | 0x20 =>
    modRMArm data inst rexW offset "and" CatLogical false
  | 0x22 =>
    modRMArm data inst rexW offset "and" CatLogical true
  | 0x28 =>
    modRMArm data inst rexW offset "sub" CatArithmetic false
  | 0x2A =>
    modRMArm data inst rexW offset "sub" CatArithmetic true
  | 0x24 =>
    if data.length ≤ offset then .ok (Instruction.empty, 0) else
    finishInst data
      { inst with Mnemonic := "and",
                  Operands := "al, 0x" ++ natToHex (data.getD offset 0),
                  Category := CatLogical } (offset + 1)
  | 0x2C =>
    if data.length ≤ offset then .ok (Instruction.empty, 0) else
    finishInst data
      { inst with Mnemonic := "sub",
                  Operands := "al, 0x" ++ natToHex (data.getD offset 0),
                  Category := CatArithmetic } (offset + 1)
  | 0x25 =>
    if data.length < offset + 4 then .ok (Instruction.empty, 0) else
    finishInst data
      { inst with Mnemonic := "and",
                  Operands := "eax, 0x" ++ natToHex (le32 (data.drop offset)),
                  Category := CatLogical } (offset + 4)
  | 0x2D =>
    if data.length < offset + 4 then .ok (Instruction.empty, 0) else
    finishInst data
      { inst with Mnemonic := "sub",
                  Operands := "eax, 0x" ++ natToHex (le32 (data.drop offset)),
                  Category := CatArithmetic } (offset + 4)
  | 0x27 =>
    finishInst data { inst with Mnemonic := "daa", Category := CatArithmetic } offset
  | 0x2F =>
    finishInst data { inst with Mnemonic := "das", Category := CatArithmetic } offset
  | _ =>
    finishInst data
      { inst with Mnemonic := "unk_" ++ natToHex2 opcode, Category := CatUnknown } offset

/-- Arms of the Go opcode switch for opcodes `0x30`-`0x3F` (bucket 3 of
the dispatch in `decodeOpcode`); the default arm is the switch's default
(`unk_xx`). -/
def decodeOpN3 (data : List Nat) (addr : Nat) (is64 rexW : Bool)
    (opcode offset : Nat) : Except Unit (Instruction × Nat) :=
  let inst : Instruction := { Address := addr }
  match opcode with
  | 0x31 | 0x33 =>
    modRMArm data inst rexW offset "xor" CatLogical (opcode &&& 0x02 ≠ 0)
  | 0x39 | 0x3B =>
    modRMArm data inst rexW offset "cmp" CatCompare (opcode &&& 0x02 ≠ 0)
  | 0x30 =>
    modRMArm data inst rexW offset "xor" CatLogical false
  | 0x32 =>
    modRMArm data inst rexW offset "xor" CatLogical true
  | 0x38 =>
    modRMArm data inst rexW offset "cmp" CatCompare false
  | 0x3A =>
    modRMArm data inst rexW offset "cmp" CatCompare true
  | 0x34 =>
    if data.length ≤ offset then .ok (Instruction.empty, 0) else
    finishInst data
      { inst with Mnemonic := "xor",
                  Operands := "al, 0x" ++ natToHex (data.getD offset 0),
                  Category := CatLogical } (offset + 1)
  | 0x3C =>
    if data.length ≤ offset then .ok (Instruction.empty, 0) else
    finishInst data
      { inst with Mnemonic := "cmp",
                  Operands := "al, 0x" ++ natToHex (data.getD offset 0),
                  Category := CatCompare } (offset + 1)
  | 0x35 =>
    if data.length < offset + 4 then .ok (Instruction.empty, 0) else
    finishInst data
      { inst with Mnemonic := "xor",
                  Operands := "eax, 0x" ++ natToHex (le32 (data.drop offset)),
                  Category := CatLogical } (offset + 4)
  | 0x3D =>
    if data.length < offset + 4 then .ok (Instruction.empty, 0) else
    finishInst data
      { inst with Mnemonic := "cmp",
                  Operands := "eax, 0x" ++ natToHex (le32 (data.drop offset)),
                  Category := CatCompare } (offset + 4)
  | 0x37 =>
    finishInst data { inst with Mnemonic := "aaa", Category := CatArithmetic } offset
  | 0x3F =>
    finishInst data { inst with Mnemonic := "aas", Category := CatArithmetic } offset
  | _ =>
    finishInst data
      { inst with Mnemonic := "unk_" ++ natToHex2 opcode, Category := CatUnknown } offset

/-- Arms of the Go opcode switch for opcodes `0x40`-`0x4F` (bucket 4 of
the dispatch in `decodeOpcode`); the default arm is the switch's default
(`unk_xx`). -/
def decodeOpN4 (data : List Nat) (addr : Nat) (is64 rexW : Bool)
    (opcode offset : Nat) : Except Unit (Instruction × Nat) :=
  let inst : Instruction := { Address := addr }
  match opcode with
  | 0x40 | 0x41 | 0x42 | 0x43 | 0x44 | 0x45 | 0x46 | 0x47 =>
    if ¬ is64 then
      finishInst data
        { inst with Mnemonic := "inc", Operands := regName64 (opcode - 0x40) false,
                    Category := CatArithmetic } offset
    else
      finishInst data { inst with Mnemonic := "rex", Category := CatOther } offset
  | 0x48 =>
    if ¬ is64 then
      finishInst data
        { inst with Mnemonic := "dec", Operands := "eax", Category := CatArithmetic } offset
    else
      finishInst data inst offset
  | _ =>
    finishInst data
      { inst with Mnemonic := "unk_" ++ natToHex2 opcode, Category := CatUnknown } offset

/-- Arms of the Go opcode switch for opcodes `0x50`-`0x5F` (bucket 5 of
the dispatch in `decodeOpcode`); the default arm is the switch's default
(`unk_xx`). -/
def decodeOpN5 (data : List Nat) (addr : Nat) (is64 rexW : Bool)
    (opcode offset : Nat) : Except Unit (Instruction × Nat) :=
  let inst : Instruction := { Address := addr }
  match opcode with
  | 0x50 | 0x51 | 0x52 | 0x53 | 0x54 | 0x55 | 0x56 | 0x57 =>
    let r := regName64 (opcode - 0x50) rexW
    finishInst data
      { inst with Mnemonic := "push", Operands := r, Category := CatStack,
                  RegsRead := [r] } offset
  | 0x58 | 0x59 | 0x5A | 0x5B | 0x5C | 0x5D | 0x5E | 0x5F =>
    let r := regName64 (opcode - 0x58) rexW
    finishInst data
      { inst with Mnemonic := "pop", Operands := r, Category := CatStack,
                  RegsWritten := [r] } offset
  | _ =>
    finishInst data
      { inst with Mnemonic := "unk_" ++ natToHex2 opcode, Category := CatUnknown } offset

/-- Arms of the Go opcode switch for opcodes `0x60`-`0x6F` (bucket 6 of
the dispatch in `decodeOpcode`); the default arm is the switch's default
(`unk_xx`). -/
def decodeOpN6 (data : List Nat) (addr : Nat) (is64 rexW : Bool)
    (opcode offset : Nat) : Except Unit (Instruction × Nat) :=
  let inst : Instruction := { Address := addr }
  match opcode with
  | 0x68 =>
    if data.length < offset + 4 then .ok (Instruction.empty, 0) else
    finishInst data
      { inst with Mnemonic := "push",
                  Operands := "0x" ++ natToHex (le32 (data.drop offset)),
                  Category := CatStack } (offset + 4)
  | 0x6A =>
    if data.length ≤ offset then .ok (Instruction.empty, 0) else
    finishInst data
      { inst with Mnemonic := "push",
                  Operands := "0x" ++ intToHex (int8val (data.getD offset 0)),
                  Category := CatStack } (offset + 1)
  | 0x69 =>
    if data.length ≤ offset then .ok (Instruction.empty, 0) else
    let modrm := data.getD offset 0
    let offset := offset + 1
    match decodeModRMDetailed modrm (data.drop offset) rexW with
    | .error e => .error e
    | .ok (dest, src) =>
      if data.length < offset + 4 then .ok (Instruction.empty, 0) else
      finishInst data
        { inst with Mnemonic := "imul", Category := CatArithmetic,
                    Operands := dest ++ ", " ++ src ++ ", 0x" ++
                      natToHex (le32 (data.drop offset)) } (offset + 4)
  | 0x6B =>
    if data.length ≤ offset then .ok (Instruction.empty, 0) else
    let modrm := data.getD offset 0
    let offset := offset + 1
    match decodeModRMDetailed modrm (data.drop offset) rexW with
    | .error e => .error e
    | .ok (dest, src) =>
      if data.length ≤ offset then .ok (Instruction.empty, 0) else
      finishInst data
        { inst with Mnemonic := "imul", Category := CatArithmetic,
                    Operands := dest ++ ", " ++ src ++ ", 0x" ++
                      intToHex (int8val (data.getD offset 0)) } (offset + 1)
  | 0x60 =>
    finishInst data { inst with Mnemonic := "pusha", Category := CatStack } offset
  | 0x61 =>
    finishInst data { inst with Mnemonic := "popa", Category := CatStack } offset
  | 0x62 =>
    modRMArm data inst rexW offset "bound" CatOther false
  | 0x63 =>
    modRMArm data inst rexW offset (if rexW then "movsxd" else "arpl")
      CatDataTransfer false
  | 0x6C =>
    finishInst data { inst with Mnemonic := "insb", Category := CatOther } offset
  | 0x6D =>
    finishInst data { inst with Mnemonic := "insd", Category := CatOther } offset
  | 0x6E =>
    finishInst data { inst with Mnemonic := "outsb", Category := CatOther } offset
  | 0x6F =>
    finishInst data { inst with Mnemonic := "outsd", Category := CatOther } offset
  | _ =>
    finishInst data
      { inst with Mnemonic := "unk_" ++ natToHex2 opcode, Category := CatUnknown } offset

/-- Arms of the Go opcode switch for opcodes `0x70`-`0x7F` (bucket 7 of
the dispatch in `decodeOpcode`); the default arm is the switch's default
(`unk_xx`). -/
def decodeOpN7 (data : List Nat) (addr : Nat) (is64 rexW : Bool)
    (opcode offset : Nat) : Except Unit (Instruction × Nat) :=
  let inst : Instruction := { Address := addr }
  match opcode with
  | 0x70 | 0x71 | 0x72 | 0x73 | 0x74 | 0x75 | 0x76 | 0x77
  | 0x78 | 0x79 | 0x7A | 0x7B | 0x7C | 0x7D | 0x7E | 0x7F =>
    if data.length ≤ offset then .ok (Instruction.empty, 0) else
    let rel := int8val (data.getD offset 0)
    let target := wrap64 ((addr : Int) + ((offset + 1 : Nat) : Int) + rel)
    finishInst data
      { inst with Mnemonic := jccMnemonic opcode, Operands := "0x" ++ natToHex target,
                  Category := CatJump, IsConditional := true, IsBranch := true,
                  BranchTarget := target, FallsThrough := true } (offset + 1)
  | _ =>
    finishInst data
      { inst with Mnemonic := "unk_" ++ natToHex2 opcode, Category := CatUnknown } offset

/-- Mnemonic of the immediate ALU group (`0x80`-`0x83`), switched on the
ModR/M reg field as in the source. -/
def aluMnemonic (reg : Nat) : String :=
  if reg = 0 then "add" else if reg = 1 then "or"
  else if reg = 2 then "adc" else if reg = 3 then "sbb"
  else if reg = 4 then "and" else if reg = 5 then "sub"
  else if reg = 6 then "xor" else "cmp"

/-- Category assigned to an ALU-group mnemonic by the `0x80`-`0x83` arm. -/
def aluCategory (mn : String) : Category :=
  if mn = "cmp" then CatCompare
  else if mn = "and" ∨ mn = "or" ∨ mn = "xor" then CatLogical
  else CatArithmetic

/-- Arms of the Go opcode switch for opcodes `0x80`-`0x8F` (bucket 8 of
the dispatch in `decodeOpcode`); the default arm is the switch's default
(`unk_xx`). -/
def decodeOpN8 (data : List Nat) (addr : Nat) (is64 rexW : Bool)
    (opcode offset : Nat) : Except Unit (Instruction × Nat) :=
  let inst : Instruction := { Address := addr }
  match opcode with
  | 0x88 | 0x89 | 0x8A | 0x8B =>
    modRMArm data inst rexW offset "mov" CatDataTransfer (opcode &&& 0x02 ≠ 0)
  | 0x85 =>
    modRMArm data inst rexW offset "test" CatCompare false
  | 0x8D =>
    modRMArm data inst rexW offset "lea" CatDataTransfer false
  | 0x86 | 0x87 =>
    modRMArm data inst rexW offset "xchg" CatDataTransfer false
  | 0x80 | 0x81 | 0x82 | 0x83 =>
    if data.length ≤ offset then .ok (Instruction.empty, 0) else
    let modrm := data.getD offset 0
    let offset := offset + 1
    let reg := (modrm >>> 3) &&& 0x7
    let mn := aluMnemonic reg
    let cat := aluCategory mn
    match decodeModRMDetailed modrm (data.drop offset) rexW with
    | .error e => .error e
    | .ok (dest, _) =>
      if opcode = 0x80 ∨ opcode = 0x82 then
        if data.length ≤ offset then .ok (Instruction.empty, 0) else
        finishInst data
          { inst with Mnemonic := mn, Category := cat,
                      Operands := dest ++ ", 0x" ++ natToHex (data.getD offset 0) }
          (offset + 1)
      else if opcode = 0x83 then
        if data.length ≤ offset then .ok (Instruction.empty, 0) else
        finishInst data
          { inst with Mnemonic := mn, Category := cat,
                      Operands := dest ++ ", 0x" ++
                        natToHex (wrap32 (int8val (data.getD offset 0))) }
          (offset + 1)
      else
        if data.length < offset + 4 then .ok (Instruction.empty, 0) else
        finishInst data
          { inst with Mnemonic := mn, Category := cat,
                      Operands := dest ++ ", 0x" ++ natToHex (le32 (data.drop offset)) }
          (offset + 4)
  | 0x84 =>
    modRMArm data inst rexW offset "test" CatCompare false
  | 0x8C =>
    if data.length ≤ offset then .ok (Instruction.empty, 0) else
    let modrm := data.getD offset 0
    let offset := offset + 1
    let sreg := (modrm >>> 3) &&& 0x7
    match decodeModRMDetailed modrm (data.drop offset) rexW with
    | .error e => .error e
    | .ok (dest, _) =>
      finishInst data
        { inst with Mnemonic := "mov", Category := CatDataTransfer,
                    Operands := dest ++ ", " ++ sregs.getD sreg "" } offset
  | 0x8E =>
    if data.length ≤ offset then .ok (Instruction.empty, 0) else
    let modrm := data.getD offset 0
    let offset := offset + 1
    let sreg := (modrm >>> 3) &&& 0x7
    match decodeModRMDetailed modrm (data.drop offset) rexW with
    | .error e => .error e
    | .ok (_, src) =>
      finishInst data
        { inst with Mnemonic := "mov", Category := CatDataTransfer,
                    Operands := sregs.getD sreg "" ++ ", " ++ src } offset
  | 0x8F =>
    if data.length ≤ offset then .ok (Instruction.empty, 0) else
    let modrm := data.getD offset 0
    let offset := offset + 1
    match decodeModRMDetailed modrm (data.drop offset) rexW with
    | .error e => .error e
    | .ok (dest, _) =>
      finishInst data
        { inst with Mnemonic := "pop", Category := CatStack, Operands := dest } offset
  | _ =>
    finishInst data
      { inst with Mnemonic := "unk_" ++ natToHex2 opcode, Category := CatUnknown } offset

/-- Arms of the Go opcode switch for opcodes `0x90`-`0x9F` (bucket 9 of
the dispatch in `decodeOpcode`); the default arm is the switch's default
(`unk_xx`). -/
def decodeOpN9 (data : List Nat) (addr : Nat) (is64 rexW : Bool)
    (opcode offset : Nat) : Except Unit (Instruction × Nat) :=
  let inst : Instruction := { Address := addr }
  match opcode with
  | 0x90 =>
    finishInst data { inst with Mnemonic := "nop", Category := CatNop } offset
  | 0x91 | 0x92 | 0x93 | 0x94 | 0x95 | 0x96 | 0x97 =>
    finishInst data
      { inst with Mnemonic := "xchg",
                  Operands := regName64 0 rexW ++ ", " ++ regName64 (opcode - 0x90) rexW,
                  Category := CatDataTransfer } offset
  | 0x9E =>
    finishInst data { inst with Mnemonic := "sahf", Category := CatDataTransfer } offset
  | 0x9F =>
    finishInst data { inst with Mnemonic := "lahf", Category := CatDataTransfer } offset
  | 0x98 =>
    finishInst data
      { inst with Mnemonic := if rexW then "cdqe" else "cwde",
                  Category := CatDataTransfer } offset
  | 0x99 =>
    finishInst data
      { inst with Mnemonic := if rexW then "cqo" else "cdq",
                  Category := CatDataTransfer } offset
  | 0x9B =>
    finishInst data { inst with Mnemonic := "wait", Category := CatOther } offset
  | 0x9C =>
    finishInst data { inst with Mnemonic := "pushf", Category := CatStack } offset
  | 0x9D =>
    finishInst data { inst with Mnemonic := "popf", Category := CatStack } offset
  | 0x9A =>
    if data.length < offset + 6 then .ok (Instruction.empty, 0) else
    finishInst data
      { inst with Mnemonic := "callf",
                  Operands := "0x" ++ natToHex (le16 (data.drop (offset + 4))) ++
                    ":0x" ++ natToHex (le32 (data.drop offset)),
                  Category := CatCall } (offset + 6)
  | _ =>
    finishInst data
      { inst with Mnemonic := "unk_" ++ natToHex2 opcode, Category := CatUnknown } offset

/-- Arms of the Go opcode switch for opcodes `0xA0`-`0xAF` (bucket 10 of
the dispatch in `decodeOpcode`); the default arm is the switch's default
(`unk_xx`). -/
def decodeOpNA (data : List Nat) (addr : Nat) (is64 rexW : Bool)
    (opcode offset : Nat) : Except Unit (Instruction × Nat) :=
  let inst : Instruction := { Address := addr }
  match opcode with
  | 0xA4 =>
    finishInst data { inst with Mnemonic := "movsb", Category := CatDataTransfer } offset
  | 0xA5 =>
    finishInst data { inst with Mnemonic := "movs", Category := CatDataTransfer } offset
  | 0xA6 =>
    finishInst data { inst with Mnemonic := "cmpsb", Category := CatCompare } offset
  | 0xA7 =>
    finishInst data { inst with Mnemonic := "cmps", Category := CatCompare } offset
  | 0xAA =>
    finishInst data { inst with Mnemonic := "stosb", Category := CatDataTransfer } offset
  | 0xAB =>
    finishInst data { inst with Mnemonic := "stos", Category := CatDataTransfer } offset
  | 0xAC =>
    finishInst data { inst with Mnemonic := "lodsb", Category := CatDataTransfer } offset
  | 0xAD =>
    finishInst data { inst with Mnemonic := "lods", Category := CatDataTransfer } offset
  | 0xAE =>
    finishInst data { inst with Mnemonic := "scasb", Category := CatCompare } offset
  | 0xAF =>
    finishInst data { inst with Mnemonic := "scas", Category := CatCompare } offset
  | 0xA8 =>
    if data.length ≤ offset then .ok (Instruction.empty, 0) else
    finishInst data
      { inst with Mnemonic := "test",
                  Operands := "al, 0x" ++ natToHex (data.getD offset 0),
                  Category := CatCompare } (offset + 1)
  | 0xA9 =>
    if data.length < offset + 4 then .ok (Instruction.empty, 0) else
    finishInst data
      { inst with Mnemonic := "test",
                  Operands := "eax, 0x" ++ natToHex (le32 (data.drop offset)),
                  Category := CatCompare } (offset + 4)
  | 0xA0 =>
    if data.length < offset + 4 then .ok (Instruction.empty, 0) else
    finishInst data
      { inst with Mnemonic := "mov",
                  Operands := "al, [0x" ++ natToHex (le32 (data.drop offset)) ++ "]",
                  Category := CatDataTransfer } (offset + 4)
  | 0xA1 =>
    if data.length < offset + 4 then .ok (Instruction.empty, 0) else
    finishInst data
      { inst with Mnemonic := "mov",
                  Operands := "eax, [0x" ++ natToHex (le32 (data.drop offset)) ++ "]",
                  Category := CatDataTransfer } (offset + 4)
  | 0xA2 =>
    if data.length < offset + 4 then .ok (Instruction.empty, 0) else
    finishInst data
      { inst with Mnemonic := "mov",
                  Operands := "[0x" ++ natToHex (le32 (data.drop offset)) ++ "], al",
                  Category := CatDataTransfer } (offset + 4)
  | 0xA3 =>
    if data.length < offset + 4 then .ok (Instruction.empty, 0) else
    finishInst data
      { inst with Mnemonic := "mov",
                  Operands := "[0x" ++ natToHex (le32 (data.drop offset)) ++ "], eax",
                  Category := CatDataTransfer } (offset + 4)
  | _ =>
    finishInst data
      { inst with Mnemonic := "unk_" ++ natToHex2 opcode, Category := CatUnknown } offset

/-- Arms of the Go opcode switch for opcodes `0xB0`-`0xBF` (bucket 11 of
the dispatch in `decodeOpcode`); the default arm is the switch's default
(`unk_xx`). -/
def decodeOpNB (data : List Nat) (addr : Nat) (is64 rexW : Bool)
    (opcode offset : Nat) : Except Unit (Instruction × Nat) :=
  let inst : Instruction := { Address := addr }
  match opcode with
  | 0xB0 | 0xB1 | 0xB2 | 0xB3 | 0xB4 | 0xB5 | 0xB6 | 0xB7 =>
    if data.length ≤ offset then .ok (Instruction.empty, 0) else
    finishInst data
      { inst with Mnemonic := "mov",
                  Operands := regName8 (opcode - 0xB0) ++ ", 0x" ++
                    natToHex (data.getD offset 0),
                  Category := CatDataTransfer } (offset + 1)
  | 0xB8 | 0xB9 | 0xBA | 0xBB | 0xBC | 0xBD | 0xBE | 0xBF =>
    if data.length < offset + 4 then .ok (Instruction.empty, 0) else
    finishInst data
      { inst with Mnemonic := "mov",
                  Operands := regName64 (opcode - 0xB8) rexW ++ ", 0x" ++
                    natToHex (le32 (data.drop offset)),
                  Category := CatDataTransfer } (offset + 4)
  | _ =>
    finishInst data
      { inst with Mnemonic := "unk_" ++ natToHex2 opcode, Category := CatUnknown } offset

/-- Arms of the Go opcode switch for opcodes `0xC0`-`0xCF` (bucket 12 of
the dispatch in `decodeOpcode`); the default arm is the switch's default
(`unk_xx`). -/
def decodeOpNC (data : List Nat) (addr : Nat) (is64 rexW : Bool)
    (opcode offset : Nat) : Except Unit (Instruction × Nat) :=
  let inst : Instruction := { Address := addr }
  match opcode with
  | 0xC3 =>
    finishInst data { inst with Mnemonic := "ret", Category := CatReturn } offset
  | 0xC2 =>
    if data.length < offset + 2 then .ok (Instruction.empty, 0) else
    finishInst data
      { inst with Mnemonic := "ret",
                  Operands := "0x" ++ natToHex (le16 (data.drop offset)),
                  Category := CatReturn } (offset + 2)
  | 0xC0 | 0xC1 =>
    if data.length ≤ offset then .ok (Instruction.empty, 0) else
    let modrm := data.getD offset 0
    let reg := (modrm >>> 3) &&& 0x7
    let offset := offset + 1
    let mn := if reg = 0 then "rol" else if reg = 1 then "ror"
      else if reg = 2 then "rcl" else if reg = 3 then "rcr"
      else if reg = 4 then "shl" else if reg = 5 then "shr"
      else if reg = 7 then "sar" else "shift_op"
    let offset :=
      if opcode = 0xC0 ∨ opcode = 0xC1 then
        if offset < data.length then offset + 1 else offset
      else offset
    finishInst data { inst with Mnemonic := mn, Category := CatLogical } offset
  | 0xC8 =>
    if offset + 2 < data.length then
      finishInst data { inst with Mnemonic := "enter", Category := CatStack } (offset + 3)
    else
      finishInst data inst offset
  | 0xC9 =>
    finishInst data { inst with Mnemonic := "leave", Category := CatStack } offset
  | 0xCC =>
    finishInst data
      { inst with Mnemonic := "int", Operands := "3", Category := CatInterrupt } offset
  | 0xCD =>
    if data.length ≤ offset then .ok (Instruction.empty, 0) else
    finishInst data
      { inst with Mnemonic := "int",
                  Operands := "0x" ++ natToHex (data.getD offset 0),
                  Category := CatInterrupt } (offset + 1)
  | 0xCE =>
    finishInst data { inst with Mnemonic := "into", Category := CatInterrupt } offset
  | 0xCF =>
    finishInst data { inst with Mnemonic := "iret", Category := CatReturn } offset
  | 0xC6 =>
    if data.length ≤ offset then .ok (Instruction.empty, 0) else
    let modrm := data.getD offset 0
    let offset := offset + 1
    match decodeModRMDetailed modrm (data.drop offset) rexW with
    | .error e => .error e
    | .ok (dest, _) =>
      if data.length ≤ offset then .ok (Instruction.empty, 0) else
      finishInst data
        { inst with Mnemonic := "mov", Category := CatDataTransfer,
                    Operands := dest ++ ", 0x" ++ natToHex (data.getD offset 0) }
        (offset + 1)
  | 0xC7 =>
    if data.length ≤ offset then .ok (Instruction.empty, 0) else
    let modrm := data.getD offset 0
    let offset := offset + 1
    match decodeModRMDetailed modrm (data.drop offset) rexW with
    | .error e => .error e
    | .ok (dest, _) =>
      if data.length < offset + 4 then .ok (Instruction.empty, 0) else
      finishInst data
        { inst with Mnemonic := "mov", Category := CatDataTransfer,
                    Operands := dest ++ ", 0x" ++ natToHex (le32 (data.drop offset)) }
        (offset + 4)
  | 0xCA =>
    if data.length < offset + 2 then .ok (Instruction.empty, 0) else
    finishInst data
      { inst with Mnemonic := "retf",
                  Operands := "0x" ++ natToHex (le16 (data.drop offset)),
                  Category := CatReturn } (offset + 2)
  | 0xCB =>
    finishInst data { inst with Mnemonic := "retf", Category := CatReturn } offset
  | 0xC4 =>
    if data.length ≤ offset then
      finishInst data { inst with Mnemonic := "vex_c4", Category := CatOther } offset
    else if 0xC0 ≤ data.getD offset 0 then
      finishInst data { inst with Mnemonic := "vex3", Category := CatOther } (offset + 2)
    else
      let modrm := data.getD offset 0
      let offset := offset + 1
      match decodeModRMDetailed modrm (data.drop offset) rexW with
      | .error e => .error e
      | .ok (dest, src) =>
        finishInst data
          { inst with Mnemonic := "les", Category := CatDataTransfer,
                      Operands := dest ++ ", " ++ src } offset
  | 0xC5 =>
    if data.length ≤ offset then
      finishInst data { inst with Mnemonic := "vex_c5", Category := CatOther } offset
    else if 0xC0 ≤ data.getD offset 0 then
      finishInst data { inst with Mnemonic := "vex2", Category := CatOther } (offset + 1)
    else
      let modrm := data.getD offset 0
      let offset := offset + 1
      match decodeModRMDetailed modrm (data.drop offset) rexW with
      | .error e => .error e
      | .ok (dest, src) =>
        finishInst data
          { inst with Mnemonic := "lds", Category := CatDataTransfer,
                      Operands := dest ++ ", " ++ src } offset
  | _ =>
    finishInst data
      { inst with Mnemonic := "unk_" ++ natToHex2 opcode, Category := CatUnknown } offset

/-- Arms of the Go opcode switch for opcodes `0xD0`-`0xDF` (bucket 13 of
the dispatch in `decodeOpcode`); the default arm is the switch's default
(`unk_xx`). -/
def decodeOpND (data : List Nat) (addr : Nat) (is64 rexW : Bool)
    (opcode offset : Nat) : Except Unit (Instruction × Nat) :=
  let inst : Instruction := { Address := addr }
  match opcode with
  | 0xD0 | 0xD1 | 0xD2 | 0xD3 =>
    if data.length ≤ offset then .ok (Instruction.empty, 0) else
    let modrm := data.getD offset 0
    let reg := (modrm >>> 3) &&& 0x7
    let offset := offset + 1
    let mn := if reg = 0 then "rol" else if reg = 1 then "ror"
      else if reg = 2 then "rcl" else if reg = 3 then "rcr"
      else if reg = 4 then "shl" else if reg = 5 then "shr"
      else if reg = 7 then "sar" else "shift_op"
    let offset :=
      if opcode = 0xC0 ∨ opcode = 0xC1 then
        if offset < data.length then offset + 1 else offset
      else offset
    finishInst data { inst with Mnemonic := mn, Category := CatLogical } offset
  | 0xD4 =>
    if data.length ≤ offset then .ok (Instruction.empty, 0) else
    finishInst data
      { inst with Mnemonic := "aam",
                  Operands := "0x" ++ natToHex (data.getD offset 0),
                  Category := CatArithmetic } (offset + 1)
  | 0xD5 =>
    if data.length ≤ offset then .ok (Instruction.empty, 0) else
    finishInst data
      { inst with Mnemonic := "aad",
                  Operands := "0x" ++ natToHex (data.getD offset 0),
                  Category := CatArithmetic } (offset + 1)
  | 0xD6 =>
    finishInst data { inst with Mnemonic := "salc", Category := CatOther } offset
  | 0xD7 =>
    finishInst data { inst with Mnemonic := "xlat", Category := CatDataTransfer } offset
  | 0xD8 =>
    if data.length ≤ offset then .ok (Instruction.empty, 0) else
    let modrm := data.getD offset 0
    finishInst data
      { inst with Mnemonic := "fpu_d8", Category := CatOther,
                  Operands := "0x" ++ natToHex2 modrm } (offset + 1)
  | 0xD9 =>
    if data.length ≤ offset then .ok (Instruction.empty, 0) else
    let modrm := data.getD offset 0
    let offset := offset + 1
    if 0xC0 ≤ modrm then
      finishInst data
        { inst with
            Mnemonic :=
              if modrm = 0xE0 then "fchs" else if modrm = 0xE1 then "fabs"
              else if modrm = 0xE4 then "ftst" else if modrm = 0xE8 then "fld1"
              else if modrm = 0xE9 then "fldl2t" else if modrm = 0xEA then "fldl2e"
              else if modrm = 0xEB then "fldpi" else if modrm = 0xEC then "fldlg2"
              else if modrm = 0xED then "fldln2" else if modrm = 0xEE then "fldz"
              else "fpu_d9",
            Operands :=
              if modrm = 0xE0 ∨ modrm = 0xE1 ∨ modrm = 0xE4 ∨ modrm = 0xE8 ∨
                 modrm = 0xE9 ∨ modrm = 0xEA ∨ modrm = 0xEB ∨ modrm = 0xEC ∨
                 modrm = 0xED ∨ modrm = 0xEE then ""
              else "0x" ++ natToHex2 modrm,
            Category := CatOther } offset
    else
      match decodeModRMDetailed modrm (data.drop offset) rexW with
      | .error e => .error e
      | .ok (dest, _) =>
        finishInst data
          { inst with Mnemonic := "fld", Operands := dest, Category := CatOther } offset
  | 0xDA =>
    if data.length ≤ offset then .ok (Instruction.empty, 0) else
    finishInst data
      { inst with Mnemonic := "fpu_da", Category := CatOther,
                  Operands := "0x" ++ natToHex2 (data.getD offset 0) } (offset + 1)
  | 0xDB =>
    if data.length ≤ offset then .ok (Instruction.empty, 0) else
    let modrm := data.getD offset 0
    if modrm = 0xE3 then
      finishInst data { inst with Mnemonic := "fninit", Category := CatOther } (offset + 1)
    else
      finishInst data
        { inst with Mnemonic := "fpu_db", Category := CatOther,
                    Operands := "0x" ++ natToHex2 modrm } (offset + 1)
  | 0xDC =>
    if data.length ≤ offset then .ok (Instruction.empty, 0) else
    finishInst data
      { inst with Mnemonic := "fpu_dc", Category := CatOther,
                  Operands := "0x" ++ natToHex2 (data.getD offset 0) } (offset + 1)
  | 0xDD =>
    if data.length ≤ offset then .ok (Instruction.empty, 0) else
    finishInst data
      { inst with Mnemonic := "fpu_dd", Category := CatOther,
                  Operands := "0x" ++ natToHex2 (data.getD offset 0) } (offset + 1)
  | 0xDE =>
    if data.length ≤ offset then .ok (Instruction.empty, 0) else
    finishInst data
      { inst with Mnemonic := "fpu_de", Category := CatOther,
                  Operands := "0x" ++ natToHex2 (data.getD offset 0) } (offset + 1)
  | 0xDF =>
    if data.length ≤ offset then .ok (Instruction.empty, 0) else
    let modrm := data.getD offset 0
    if modrm = 0xE0 then
      finishInst data
        { inst with Mnemonic := "fnstsw", Operands := "ax", Category := CatOther }
        (offset + 1)
    else
      finishInst data
        { inst with Mnemonic := "fpu_df", Category := CatOther,
                    Operands := "0x" ++ natToHex2 modrm } (offset + 1)
  | _ =>
    finishInst data
      { inst with Mnemonic := "unk_" ++ natToHex2 opcode, Category := CatUnknown } offset

/-- Arms of the Go opcode switch for opcodes `0xE0`-`0xEF` (bucket 14 of
the dispatch in `decodeOpcode`); the default arm is the switch's default
(`unk_xx`). -/
def decodeOpNE (data : List Nat) (addr : Nat) (is64 rexW : Bool)
    (opcode offset : Nat) : Except Unit (Instruction × Nat) :=
  let inst : Instruction := { Address := addr }
  match opcode with
  | 0xE9 =>
    if data.length < offset + 4 then .ok (Instruction.empty, 0) else
    let rel := int32val (le32 (data.drop offset))
    let target := wrap64 ((addr : Int) + ((offset + 4 : Nat) : Int) + rel)
    finishInst data
      { inst with Mnemonic := "jmp", Operands := "0x" ++ natToHex target,
                  Category := CatJump, IsBranch := true, BranchTarget := target }
      (offset + 4)
  | 0xEB =>
    if data.length ≤ offset then .ok (Instruction.empty, 0) else
    let rel := int8val (data.getD offset 0)
    let target := wrap64 ((addr : Int) + ((offset + 1 : Nat) : Int) + rel)
    finishInst data
      { inst with Mnemonic := "jmp", Operands := "0x" ++ natToHex target,
                  Category := CatJump, IsBranch := true, BranchTarget := target }
      (offset + 1)
  | 0xE8 =>
    if data.length < offset + 4 then .ok (Instruction.empty, 0) else
    let rel := int32val (le32 (data.drop offset))
    let target := wrap64 ((addr : Int) + ((offset + 4 : Nat) : Int) + rel)
    finishInst data
      { inst with Mnemonic := "call", Operands := "0x" ++ natToHex target,
                  Category := CatCall, IsBranch := true, BranchTarget := target,
                  FallsThrough := true } (offset + 4)
  | 0xE0 =>
    if data.length ≤ offset then .ok (Instruction.empty, 0) else
    let target := (addr + wrap64 (int8val (data.getD offset 0)) + 2) % 2 ^ 64
    finishInst data
      { inst with Mnemonic := "loopne", Operands := "0x" ++ natToHex target,
                  Category := CatJump, IsBranch := true, BranchTarget := target }
      (offset + 1)
  | 0xE1 =>
    if data.length ≤ offset then .ok (Instruction.empty, 0) else
    let target := (addr + wrap64 (int8val (data.getD offset 0)) + 2) % 2 ^ 64
    finishInst data
      { inst with Mnemonic := "loope", Operands := "0x" ++ natToHex target,
                  Category := CatJump, IsBranch := true, BranchTarget := target }
      (offset + 1)
  | 0xE2 =>
    if data.length ≤ offset then .ok (Instruction.empty, 0) else
    let target := (addr + wrap64 (int8val (data.getD offset 0)) + 2) % 2 ^ 64
    finishInst data
      { inst with Mnemonic := "loop", Operands := "0x" ++ natToHex target,
                  Category := CatJump, IsBranch := true, BranchTarget := target }
      (offset + 1)
  | 0xE3 =>
    if data.length ≤ offset then .ok (Instruction.empty, 0) else
    let target := (addr + wrap64 (int8val (data.getD offset 0)) + 2) % 2 ^ 64
    finishInst data
      { inst with Mnemonic := "jrcxz", Operands := "0x" ++ natToHex target,
                  Category := CatJump, IsConditional := true, IsBranch := true,
                  BranchTarget := target } (offset + 1)
  | 0xEA =>
    if data.length < offset + 6 then .ok (Instruction.empty, 0) else
    finishInst data
      { inst with Mnemonic := "jmpf",
                  Operands := "0x" ++ natToHex (le16 (data.drop (offset + 4))) ++
                    ":0x" ++ natToHex (le32 (data.drop offset)),
                  Category := CatJump } (offset + 6)
  | 0xE4 =>
    if data.length ≤ offset then .ok (Instruction.empty, 0) else
    finishInst data
      { inst with Mnemonic := "in",
                  Operands := "al, 0x" ++ natToHex (data.getD offset 0),
                  Category := CatOther } (offset + 1)
  | 0xE5 =>
    if data.length ≤ offset then .ok (Instruction.empty, 0) else
    finishInst data
      { inst with Mnemonic := "in",
                  Operands := "eax, 0x" ++ natToHex (data.getD offset 0),
                  Category := CatOther } (offset + 1)
  | 0xE6 =>
    if data.length ≤ offset then .ok (Instruction.empty, 0) else
    finishInst data
      { inst with Mnemonic := "out",
                  Operands := "0x" ++ natToHex (data.getD offset 0) ++ ", al",
                  Category := CatOther } (offset + 1)
  | 0xE7 =>
    if data.length ≤ offset then .ok (Instruction.empty, 0) else
    finishInst data
      { inst with Mnemonic := "out",
                  Operands := "0x" ++ natToHex (data.getD offset 0) ++ ", eax",
                  Category := CatOther } (offset + 1)
  | 0xEC =>
    finishInst data
      { inst with Mnemonic := "in", Operands := "al, dx", Category := CatOther } offset
  | 0xED =>
    finishInst data
      { inst with Mnemonic := "in", Operands := "eax, dx", Category := CatOther } offset
  | 0xEE =>
    finishInst data
      { inst with Mnemonic := "out", Operands := "dx, al", Category := CatOther } offset
  | 0xEF =>
    finishInst data
      { inst with Mnemonic := "out", Operands := "dx, eax", Category := CatOther } offset
  | _ =>
    finishInst data
      { inst with Mnemonic := "unk_" ++ natToHex2 opcode, Category := CatUnknown } offset

/-- Arms of the Go opcode switch for opcodes `0xF0`-`0xFF` (bucket 15 of
the dispatch in `decodeOpcode`); the default arm is the switch's default
(`unk_xx`). -/
def decodeOpNF (data : List Nat) (addr : Nat) (is64 rexW : Bool)
    (opcode offset : Nat) : Except Unit (Instruction × Nat) :=
  let inst : Instruction := { Address := addr }
  match opcode with
  | 0xFF =>
    if data.length ≤ offset then .ok (Instruction.empty, 0) else
    let modrm := data.getD offset 0
    let reg := (modrm >>> 3) &&& 0x7
    let offset := offset + 1
    if reg = 0 ∨ reg = 1 then
      finishInst data
        { inst with Mnemonic := if reg = 0 then "inc" else "dec",
                    Category := CatArithmetic } offset
    else if reg = 2 then
      finishInst data
        { inst with Mnemonic := "call", Category := CatCall, FallsThrough := true } offset
    else if reg = 4 then
      finishInst data
        { inst with Mnemonic := "jmp", Category := CatJump, IsBranch := true } offset
    else
      finishInst data { inst with Mnemonic := "ff_op" } offset
  | 0xF6 | 0xF7 =>
    if data.length ≤ offset then .ok (Instruction.empty, 0) else
    let modrm := data.getD offset 0
    let reg := (modrm >>> 3) &&& 0x7
    let offset := offset + 1
    if reg = 0 ∨ reg = 1 then
      finishInst data { inst with Mnemonic := "test", Category := CatCompare }
        (if opcode = 0xF6 then offset + 1 else offset + 4)
    else if reg = 2 then
      finishInst data { inst with Mnemonic := "not", Category := CatLogical } offset
    else if reg = 3 then
      finishInst data { inst with Mnemonic := "neg", Category := CatArithmetic } offset
    else if reg = 4 then
      finishInst data { inst with Mnemonic := "mul", Category := CatArithmetic } offset
    else if reg = 5 then
      finishInst data { inst with Mnemonic := "imul", Category := CatArithmetic } offset
    else if reg = 6 then
      finishInst data { inst with Mnemonic := "div", Category := CatArithmetic } offset
    else
      finishInst data { inst with Mnemonic := "idiv", Category := CatArithmetic } offset
  | 0xF4 =>
    finishInst data { inst with Mnemonic := "hlt", Category := CatInterrupt } offset
  | 0xF8 =>
    finishInst data { inst with Mnemonic := "clc", Category := CatOther } offset
  | 0xF9 =>
    finishInst data { inst with Mnemonic := "stc", Category := CatOther } offset
  | 0xFA =>
    finishInst data { inst with Mnemonic := "cli", Category := CatOther } offset
  | 0xFB =>
    finishInst data { inst with Mnemonic := "sti", Category := CatOther } offset
  | 0xFC =>
    finishInst data { inst with Mnemonic := "cld", Category := CatOther } offset
  | 0xFD =>
    finishInst data { inst with Mnemonic := "std", Category := CatOther } offset
  | 0xFE =>
    if data.length ≤ offset then .ok (Instruction.empty, 0) else
    let modrm := data.getD offset 0
    let offset := offset + 1
    let reg := (modrm >>> 3) &&& 0x7
    let mn := if reg = 0 then "inc" else if reg = 1 then "dec" else "fe_op"
    match decodeModRMDetailed modrm (data.drop offset) rexW with
    | .error e => .error e
    | .ok (dest, _) =>
      finishInst data
        { inst with Mnemonic := mn, Category := CatArithmetic, Operands := dest } offset
  | 0xF1 =>
    finishInst data { inst with Mnemonic := "int1", Category := CatInterrupt } offset
  | 0xF5 =>
    finishInst data { inst with Mnemonic := "cmc", Category := CatOther } offset
  | _ =>
    finishInst data
      { inst with Mnemonic := "unk_" ++ natToHex2 opcode, Category := CatUnknown } offset

/-- Opcode switch of `EnhancedDecodeInstruction`; `opcode` is the byte at the
post-prefix position and `offset` points just past it.  The single Go `switch`
is embedded as sixteen bucket functions dispatched on the opcode's high
nibble; every arm (including each bucket's default and the dispatcher's
default) mirrors the corresponding `case` of the Go switch, with
`.ok (Instruction.empty, 0)` for the Go `return Instruction{}, 0` failure and
`.error ()` for an index-range panic.  The shift/rotate group case
(`0xC0, 0xC1, 0xD0`-`0xD3`) appears in buckets 12 and 13 with an identical
body. -/
def decodeOpcode (data : List Nat) (addr : Nat) (is64 rexW : Bool)
    (opcode offset : Nat) : Except Unit (Instruction × Nat) :=
  let inst : Instruction := { Address := addr }
  match opcode / 16 with
  | 0 => decodeOpN0 data addr is64 rexW opcode offset
  | 1 => decodeOpN1 data addr is64 rexW opcode offset
  | 2 => decodeOpN2 data addr is64 rexW opcode offset
  | 3 => decodeOpN3 data addr is64 rexW opcode offset
  | 4 => decodeOpN4 data addr is64 rexW opcode offset
  | 5 => decodeOpN5 data addr is64 rexW opcode offset
  | 6 => decodeOpN6 data addr is64 rexW opcode offset
  | 7 => decodeOpN7 data addr is64 rexW opcode offset
  | 8 => decodeOpN8 data addr is64 rexW opcode offset
  | 9 => decodeOpN9 data addr is64 rexW opcode offset
  | 10 => decodeOpNA data addr is64 rexW opcode offset
  | 11 => decodeOpNB data addr is64 rexW opcode offset
  | 12 => decodeOpNC data addr is64 rexW opcode offset
  | 13 => decodeOpND data addr is64 rexW opcode offset
  | 14 => decodeOpNE data addr is64 rexW opcode offset
  | 15 => decodeOpNF data addr is64 rexW opcode offset
  | _ =>
    finishInst data
      { inst with Mnemonic := "unk_" ++ natToHex2 opcode, Category := CatUnknown } offset
/-- EnhancedDecodeInstruction from `pkg/disasm/patterns.go`.  Returns
`.error ()` exactly when the Go function would panic with an
index-out-of-range, and otherwise `.ok (instruction, size)`, with size 0 on
decode failure. -/
def EnhancedDecodeInstruction (data : List Nat) (addr : Nat) (arch : String) :
    Except Unit (Instruction × Nat) :=
  if data.length = 0 then .ok (Instruction.empty, 0)
  else
    let is64 := arch == "x86_64"
    let pr := scanPrefixes data is64 0 false
    if data.length ≤ pr.1 then .ok (Instruction.empty, 0)
    else decodeOpcode data addr is64 pr.2 (data.getD pr.1 0) (pr.1 + 1)

/-- List-level test that `s` starts with `pre`. -/
def startsWithList : List Char → List Char → Bool
  | _, [] => true
  | [], _ :: _ => false
  | a :: as_, b :: bs => a = b && startsWithList as_ bs

/-- Substring search over character lists (Go `strings.Contains`). -/
def strContainsAux : List Char → List Char → Bool
  | [], sub => sub.isEmpty
  | c :: rest, sub => startsWithList (c :: rest) sub || strContainsAux rest sub

/-- Go `strings.Contains`. -/
def goContains (s sub : String) : Bool := strContainsAux s.toList sub.toList

/-- Go `strings.HasPrefix`. -/
def goStartsWith (s pre : String) : Bool := startsWithList s.toList pre.toList

/-- Splitter for Go `strings.Split(s, ",")`: cut at every comma. -/
def splitCommaAux : List Char → List Char → List String
  | [], acc => [String.mk acc.reverse]
  | c :: rest, acc =>
    if c = ',' then String.mk acc.reverse :: splitCommaAux rest []
    else splitCommaAux rest (c :: acc)

/-- Go `strings.Split(s, ",")`. -/
def goSplitComma (s : String) : List String := splitCommaAux s.toList []

/-- Whitespace test of Go `strings.TrimSpace` (the operand strings only ever
contain plain spaces). -/
def isSpaceChar (c : Char) : Bool := c = ' ' || c = '\t' || c = '\n' || c = '\r'

/-- Go `strings.TrimSpace`. -/
def goTrim (s : String) : String :=
  String.mk (((s.toList.dropWhile isSpaceChar).reverse.dropWhile isSpaceChar).reverse)

/-- Function record from `pkg/disasm/capstone.go`. -/
structure GoFunction where
  Name : String := ""
  StartAddr : Nat := 0
  EndAddr : Nat := 0
  Instructions : List Instruction := []
  Calls : List Nat := []
  deriving Repr, DecidableEq, BEq, Inhabited

/-- regName from the old simple decoder in `pkg/disasm/capstone.go`. -/
def regName (n : Nat) (arch : String) : String :=
  if arch = "x86_64" then
    ["rax", "rcx", "rdx", "rbx", "rsp", "rbp", "rsi", "rdi"].getD n ("r" ++ toString n)
  else
    ["eax", "ecx", "edx", "ebx", "esp", "ebp", "esi", "edi"].getD n ("r" ++ toString n)

/-- decodeModRM from the old simple decoder in `pkg/disasm/capstone.go`. -/
def decodeModRM (modrm : Nat) : String :=
  let mod := (modrm >>> 6) &&& 0x3
  let rm := modrm &&& 0x7
  let reg := (modrm >>> 3) &&& 0x7
  let regStr := regName reg "x86_64"
  let rmStr := regName rm "x86_64"
  if mod = 0 then regStr ++ ", [" ++ rmStr ++ "]"
  else if mod = 1 then regStr ++ ", [" ++ rmStr ++ "+disp8]"
  else if mod = 2 then regStr ++ ", [" ++ rmStr ++ "+disp32]"
  else regStr ++ ", " ++ rmStr

/-- decodeInstruction, the old simple decoder in `pkg/disasm/capstone.go`; the
sweep falls back to it when `EnhancedDecodeInstruction` fails. -/
def decodeInstruction (data : List Nat) (addr : Nat) (arch : String) :
    Instruction × Nat :=
  if data.length = 0 then (Instruction.empty, 0) else
  let inst : Instruction := { Address := addr }
  let b0 := data.getD 0 0
  match b0 with
  | 0x55 =>
    let i := { inst with Mnemonic := "push", Operands := "rbp", Size := 1,
                         Bytes := data.take 1 }
    (i, i.Size)
  | 0x48 =>
    if data.length < 2 then (Instruction.empty, 0) else
    let b1 := data.getD 1 0
    if b1 = 0x89 ∨ b1 = 0x8B then
      if data.length < 3 then (Instruction.empty, 0) else
      let i := { inst with Mnemonic := "mov", Operands := decodeModRM (data.getD 2 0),
                           Size := 3, Bytes := data.take 3 }
      (i, i.Size)
    else
      let i := { inst with Mnemonic := "rex.w+0x" ++ natToHex2 b1, Size := 2,
                           Bytes := data.take 2 }
      (i, i.Size)
  | 0x89 | 0x8B =>
    if data.length < 2 then (Instruction.empty, 0) else
    let i := { inst with Mnemonic := "mov", Operands := decodeModRM (data.getD 1 0),
                         Size := 2, Bytes := data.take 2 }
    (i, i.Size)
  | 0xC3 =>
    let i := { inst with Mnemonic := "ret", Size := 1, Bytes := data.take 1 }
    (i, i.Size)
  | 0xE8 =>
    if data.length < 5 then (Instruction.empty, 0) else
    let rel := int32val (le32 (data.drop 1))
    let target := (addr + wrap64 rel + 5) % 2 ^ 64
    let i := { inst with Mnemonic := "call", Operands := "0x" ++ natToHex target,
                         Size := 5, Bytes := data.take 5 }
    (i, i.Size)
  | 0xFF =>
    if data.length < 2 then (Instruction.empty, 0) else
    let modrm := data.getD 1 0
    let reg := (modrm >>> 3) &&& 0x7
    let mn := if reg = 2 then "call" else if reg = 4 then "jmp" else ""
    let i := { inst with Mnemonic := mn, Operands := decodeModRM modrm, Size := 2,
                         Bytes := data.take 2 }
    (i, i.Size)
  | 0x50 | 0x51 | 0x52 | 0x53 | 0x54 | 0x56 | 0x57 =>
    let i := { inst with Mnemonic := "push", Operands := regName (b0 - 0x50) arch,
                         Size := 1, Bytes := data.take 1 }
    (i, i.Size)
  | 0x58 | 0x59 | 0x5A | 0x5B | 0x5C | 0x5D | 0x5E | 0x5F =>
    let i := { inst with Mnemonic := "pop", Operands := regName (b0 - 0x58) arch,
                         Size := 1, Bytes := data.take 1 }
    (i, i.Size)
  | 0x90 =>
    let i := { inst with Mnemonic := "nop", Size := 1, Bytes := data.take 1 }
    (i, i.Size)
  | _ =>
    let i := { inst with Mnemonic := "db 0x" ++ natToHex2 b0, Size := 1,
                         Bytes := data.take 1 }
    (i, i.Size)

/-- Fallback linear-sweep loop of `DisassembleSection`: enhanced decode, old
decoder on failure, one-byte advance when both fail.  `fuel` bounds the number
of iterations; since every iteration advances `offset` by at least one,
`data.length` iterations always reach the end of the section. -/
def sweepLoop (data : List Nat) (base : Nat) (arch : String) :
    Nat → Nat → Except Unit (List Instruction)
  | _, 0 => .ok []
  | offset, fuel + 1 =>
    if offset < data.length then
      match EnhancedDecodeInstruction (data.drop offset) (base + offset) arch with
      | .error e => .error e
      | .ok (inst0, size0) =>
        let p := if size0 = 0 then decodeInstruction (data.drop offset) (base + offset) arch
                 else (inst0, size0)
        if p.2 = 0 then sweepLoop data base arch (offset + 1) fuel
        else
          match sweepLoop data base arch (offset + p.2) fuel with
          | .error e => .error e
          | .ok rest => .ok (p.1 :: rest)
    else .ok []

/-- Linear sweep of one section (the fallback path of `DisassembleSection`). -/
def DisassembleSection (data : List Nat) (base : Nat) (arch : String) :
    Except Unit (List Instruction) :=
  sweepLoop data base arch 0 data.length

/-- OpType from the decompiler; constructor order matches the Go `iota` order,
so `OpAssign` is the zero value — which matters for the emission guard. -/
inductive OpType where
  | OpAssign
  | OpCall
  | OpReturn
  | OpIf
  | OpLoop
  | OpCompare
  | OpArithmetic
  | OpMemoryAccess
  deriving Repr, DecidableEq, BEq, Inhabited

export OpType (OpAssign OpCall OpReturn OpIf OpLoop OpCompare OpArithmetic OpMemoryAccess)

/-- Operation record from the decompiler (`Typ` is the Go field `Type`,
renamed because `Type` is a Lean keyword). -/
structure Operation where
  Typ : OpType := OpAssign
  Dest : String := ""
  Src1 : String := ""
  Src2 : String := ""
  Operator : String := ""
  Address : Nat := 0
  Comment : String := ""
  deriving Repr, DecidableEq, BEq, Inhabited

/-- Variable record from the decompiler (`Typ` is the Go field `Type`). -/
structure Variable where
  Name : String := ""
  Typ : String := ""
  Register : String := ""
  Offset : Int := 0
  IsLocal : Bool := false
  IsParam : Bool := false
  deriving Repr, DecidableEq, BEq, Inhabited

/-- DecompiledFunction record from the decompiler. -/
structure DecompiledFunction where
  Function : GoFunction := {}
  Variables : List Variable := []
  Operations : List Operation := []
  LocalVars : Nat := 0
  HasReturn : Bool := false
  deriving Repr, DecidableEq, BEq, Inhabited

/-- Go map read (`regMap[k]`): newest binding wins. -/
def mapGet (m : List (String × String)) (k : String) : Option String :=
  match m.find? (fun p => p.1 == k) with
  | some p => some p.2
  | none => none

/-- Go map write (`regMap[k] = v`): shadow any older binding. -/
def mapSet (m : List (String × String)) (k v : String) : List (String × String) :=
  (k, v) :: m

/-- Mutable state threaded through the `Decompile` loop. -/
structure LiftState where
  regMap : List (String × String) := []
  varCount : Nat := 0
  df : DecompiledFunction := {}
  deriving Repr, DecidableEq, Inhabited

/-- Append of an operation at the bottom of the `Decompile` loop, guarded by the
Go test `op.Type != 0 || op.Comment != ""` (`OpAssign` is the zero value). -/
def emitOp (df : DecompiledFunction) (op : Operation) : DecompiledFunction :=
  if op.Typ ≠ OpAssign ∨ op.Comment ≠ "" then
    { df with Operations := df.Operations ++ [op] }
  else df

/-- One iteration of the `Decompile` instruction loop (index `i`). -/
def liftStep (st : LiftState) (i : Nat) (inst : Instruction) : LiftState :=
  let op0 : Operation := { Address := inst.Address }
  if inst.Mnemonic == "push" then
    if inst.Operands == "rbp" && i == 0 then st
    else
      let op := { op0 with Typ := OpAssign, Comment := "save " ++ inst.Operands }
      { st with df := emitOp st.df op }
  else if inst.Mnemonic == "pop" then
    if inst.Operands == "rbp" then st
    else
      let op := { op0 with Typ := OpAssign, Comment := "restore " ++ inst.Operands }
      { st with df := emitOp st.df op }
  else if inst.Mnemonic == "mov" then
    let parts := goSplitComma inst.Operands
    if parts.length == 2 then
      let dest := goTrim (parts.getD 0 "")
      let src := goTrim (parts.getD 1 "")
      if goContains src "rbp" || goContains src "rsp" then
        let varName := "var" ++ toString st.varCount
        let v : Variable := { Name := varName, Register := dest, IsLocal := true }
        let df1 := { st.df with Variables := st.df.Variables ++ [v] }
        let op := { op0 with Typ := OpAssign, Dest := varName, Src1 := src }
        { regMap := mapSet st.regMap dest varName,
          varCount := st.varCount + 1,
          df := emitOp df1 op }
      else if goContains dest "rbp" || goContains dest "rsp" then
        match mapGet st.regMap src with
        | some varName =>
          let op := { op0 with Typ := OpAssign, Dest := "local", Src1 := varName }
          { st with df := emitOp st.df op }
        | none =>
          let op := { op0 with Typ := OpAssign }
          { st with df := emitOp st.df op }
      else
        match mapGet st.regMap src with
        | some srcVar =>
          let op := { op0 with Typ := OpAssign, Dest := dest, Src1 := srcVar }
          { st with regMap := mapSet st.regMap dest srcVar, df := emitOp st.df op }
        | none =>
          let varName := "var" ++ toString st.varCount
          let op := { op0 with Typ := OpAssign, Dest := varName, Src1 := src }
          { regMap := mapSet st.regMap dest varName,
            varCount := st.varCount + 1,
            df := emitOp st.df op }
    else
      let op := { op0 with Typ := OpAssign }
      { st with df := emitOp st.df op }
  else if inst.Mnemonic == "call" then
    let cmt := if goStartsWith inst.Operands "0x" then "call to " ++ inst.Operands else ""
    let op := { op0 with Typ := OpCall, Dest := "result", Src1 := inst.Operands,
                         Comment := cmt }
    { st with df := emitOp st.df op }
  else if inst.Mnemonic == "ret" then
    let src1 := match mapGet st.regMap "rax" with
      | some retVar => retVar
      | none => ""
    let op := { op0 with Typ := OpReturn, Src1 := src1 }
    let df1 := { st.df with HasReturn := true }
    { st with df := emitOp df1 op }
  else if ["add", "sub", "mul", "imul", "div", "idiv"].contains inst.Mnemonic then
    let parts := goSplitComma inst.Operands
    let op :=
      if parts.length == 2 then
        let dest := goTrim (parts.getD 0 "")
        let src := goTrim (parts.getD 1 "")
        match mapGet st.regMap dest with
        | some varName =>
          { op0 with Typ := OpArithmetic, Operator := inst.Mnemonic,
                     Dest := varName, Src1 := varName, Src2 := src }
        | none =>
          { op0 with Typ := OpArithmetic, Operator := inst.Mnemonic,
                     Dest := dest, Src1 := dest, Src2 := src }
      else { op0 with Typ := OpArithmetic, Operator := inst.Mnemonic }
    { st with df := emitOp st.df op }
  else if inst.Mnemonic == "cmp" || inst.Mnemonic == "test" then
    let parts := goSplitComma inst.Operands
    let op :=
      if parts.length == 2 then
        { op0 with Typ := OpCompare, Src1 := goTrim (parts.getD 0 ""),
                   Src2 := goTrim (parts.getD 1 "") }
      else { op0 with Typ := OpCompare }
    { st with df := emitOp st.df op }
  else if ["jmp", "je", "jne", "jg", "jge", "jl", "jle", "ja", "jb", "jbe",
           "jae"].contains inst.Mnemonic then
    let op := { op0 with Typ := OpIf, Operator := inst.Mnemonic, Src1 := inst.Operands,
                         Comment := "conditional jump: " ++ inst.Mnemonic }
    { st with df := emitOp st.df op }
  else
    let op := { op0 with Comment := inst.Mnemonic ++ " " ++ inst.Operands }
    { st with df := emitOp st.df op }

/-- Instruction loop of `Decompile`. -/
def liftLoop (st : LiftState) (i : Nat) : List Instruction → LiftState
  | [] => st
  | inst :: rest => liftLoop (liftStep st i inst) (i + 1) rest

/-- Decompile from the decompiler source: convert a function's instructions to
operations, tracking register-to-variable aliasing. -/
def Decompile (fn : GoFunction) : DecompiledFunction :=
  let st := liftLoop { df := { Function := fn } } 0 fn.Instructions
  { st.df with LocalVars := st.varCount }

/-- BasicBlock record from the cfg package.  Edges live in `Graph`, indexed by
the (unique, insertion-ordered) block `ID`; the dominator assignment lives in
the list produced by `computeDominators`. -/
structure BasicBlock where
  ID : Nat := 0
  StartAddr : Nat := 0
  EndAddr : Nat := 0
  Instructions : List Instruction := []
  deriving Repr, DecidableEq, BEq, Inhabited

/-- identifyLeaders from `pkg/cfg/builder.go`: the leader set as the list of
addresses inserted (membership is what the Go map provides). -/
def identifyLeaders (instrs : List Instruction) : List Nat :=
  if instrs.isEmpty then [] else
  (List.range instrs.length).foldl (fun acc i =>
    let inst := instrs.getD i default
    let acc := if inst.IsBranch && inst.BranchTarget ≠ 0 then
        acc ++ [inst.BranchTarget] else acc
    if inst.IsControlFlow && i + 1 < instrs.length &&
       (inst.FallsThrough || inst.Category == CatCall) then
      acc ++ [(instrs.getD (i + 1) default).Address]
    else acc)
    [(instrs.headD default).Address]

/-- createBasicBlocks loop from `pkg/cfg/builder.go`: start a block at each
leader, close after a terminator only when the next instruction is a leader,
and push the final open block. -/
def createBlocksLoop (leaders : List Nat) :
    List Instruction → Option BasicBlock → Nat → List BasicBlock
  | [], cur, _ =>
    (match cur with
     | some b => [b]
     | none => [])
  | inst :: rest, cur, blockID =>
    let st : List BasicBlock × Option BasicBlock × Nat :=
      if leaders.contains inst.Address then
        ((match cur with
          | some b => [b]
          | none => []),
         some { ID := blockID, StartAddr := inst.Address }, blockID + 1)
      else ([], cur, blockID)
    let em1 := st.1
    match st.2.1 with
    | some b =>
      let b2 := { b with Instructions := b.Instructions ++ [inst],
                         EndAddr := inst.Address }
      match rest with
      | next :: _ =>
        if inst.IsTerminator && leaders.contains next.Address then
          em1 ++ [b2] ++ createBlocksLoop leaders rest none st.2.2
        else em1 ++ createBlocksLoop leaders rest (some b2) st.2.2
      | [] => em1 ++ [b2]
    | none => em1 ++ createBlocksLoop leaders rest none st.2.2

/-- createBasicBlocks from `pkg/cfg/builder.go`. -/
def createBasicBlocks (instrs : List Instruction) (leaders : List Nat) :
    List BasicBlock :=
  createBlocksLoop leaders instrs none 0

/-- Successor/predecessor edge lists of a CFG, indexed by block `ID`
(Go holds them as slices of pointers inside each block; block identity is the
unique `ID`). -/
structure Graph where
  Successors : Nat → List Nat
  Predecessors : Nat → List Nat

/-- Edge-free graph: the state of the blocks when `connectBlocks` starts. -/
def Graph.empty : Graph := ⟨fun _ => [], fun _ => []⟩

/-- AddSuccessor from the cfg block source: skip when the successor is already
present; otherwise append it, and append the back-reference unless already
present. -/
def AddSuccessor (g : Graph) (a b : Nat) : Graph :=
  if b ∈ g.Successors a then g
  else
    let g1 : Graph :=
      ⟨fun x => if x = a then g.Successors a ++ [b] else g.Successors x,
       g.Predecessors⟩
    if a ∈ g1.Predecessors b then g1
    else
      ⟨g1.Successors,
       fun x => if x = b then g1.Predecessors b ++ [a] else g1.Predecessors x⟩

/-- Go `cfg.BlockMap` lookup: the map is filled by iterating the block list and
storing each block under its `StartAddr`, so on duplicates the last one wins. -/
def blockMapLookup (bs : List BasicBlock) (a : Nat) : Option BasicBlock :=
  bs.foldl (fun acc b => if b.StartAddr = a then some b else acc) none

/-- Edge set added for one block by `connectBlocks` (switch on the category of
the block's last instruction). -/
def connectOne (bs : List BasicBlock) (g : Graph) (i : Nat) (b : BasicBlock) :
    Graph :=
  match b.Instructions.getLast? with
  | none => g
  | some lastInst =>
    match lastInst.Category with
    | CatJump =>
      if lastInst.IsConditional then
        let g :=
          match blockMapLookup bs lastInst.BranchTarget with
          | some t => AddSuccessor g b.ID t.ID
          | none => g
        if i + 1 < bs.length then AddSuccessor g b.ID (bs.getD (i + 1) default).ID
        else g
      else
        match blockMapLookup bs lastInst.BranchTarget with
        | some t => AddSuccessor g b.ID t.ID
        | none => g
    | CatCall =>
      if i + 1 < bs.length then AddSuccessor g b.ID (bs.getD (i + 1) default).ID
      else g
    | CatReturn => g
    | _ =>
      if i + 1 < bs.length then AddSuccessor g b.ID (bs.getD (i + 1) default).ID
      else g

/-- connectBlocks from `pkg/cfg/builder.go`, starting from the edge-free state. -/
def connectBlocks (bs : List BasicBlock) : Graph :=
  (List.range bs.length).foldl
    (fun g i => connectOne bs g i (bs.getD i default)) Graph.empty

/-- intersectDominators from `pkg/cfg/builder.go`, over the current dominator
assignment `m` (indexed by block ID; `none` = unset).  The Go loop carries no
bound; `fuel` makes the embedding total, and every call made by
`computeDominators` on the concrete CFGs analysed here returns well within it. -/
def intersectDominators (m : List (Option Nat)) : Nat → Nat → Nat → Nat
  | 0, f1, _ => f1
  | fuel + 1, f1, f2 =>
    if f1 = f2 then f1
    else if f2 < f1 then
      match m.getD f1 none with
      | none => f2
      | some d => intersectDominators m fuel d f2
    else
      match m.getD f2 none with
      | none => f1
      | some d => intersectDominators m fuel f1 d

/-- One full pass of the dominator fixed-point loop: for every non-entry block,
in order, intersect the current dominators of its predecessors (skipping unset
ones) and update in place, flagging any change. -/
def domPass (preds : List (List Nat)) (entry : Nat) (m0 : List (Option Nat)) :
    List (Option Nat) × Bool :=
  (List.range m0.length).foldl
    (fun acc b =>
      let m := acc.1
      if b = entry then acc
      else
        let newDom := (preds.getD b []).foldl
          (fun nd p =>
            match m.getD p none with
            | none => nd
            | some pd =>
              match nd with
              | none => some pd
              | some x => some (intersectDominators m m.length pd x)) none
        match newDom with
        | some nd =>
          if m.getD b none ≠ some nd then (m.set b (some nd), true) else acc
        | none => acc)
    (m0, false)

/-- Fixed-point loop of computeDominators; `fuel` is the explicit Go iteration
cap `len(blocks) * len(blocks)`. -/
def domLoop (preds : List (List Nat)) (entry : Nat) :
    Nat → List (Option Nat) → List (Option Nat)
  | 0, m => m
  | fuel + 1, m =>
    let p := domPass preds entry m
    if p.2 then domLoop preds entry fuel p.1 else p.1

/-- computeDominators from `pkg/cfg/builder.go` for a CFG with `n` blocks whose
IDs are `0 .. n-1` in list order, predecessor lists `preds`, and entry block 0:
initialize the entry as its own immediate dominator and iterate to a fixed
point (capped at `n * n` passes, as in the source). -/
def computeDominators (n : Nat) (preds : List (List Nat)) : List (Option Nat) :=
  if n = 0 then [] else
  domLoop preds 0 (n * n)
    ((List.range n).map (fun i => if i = 0 then some 0 else none))

/-- Dominates walk from the cfg block source: follow the `DominatedBy` chain
from `target` looking for `bb`, for at most `fuel` steps.  `some r` means the
Go loop returns `r` within `fuel` steps; `none` means it is still running. -/
def dominatesFuel (m : Nat → Option Nat) (bb : Nat) :
    Option Nat → Nat → Option Bool
  | none, _ => some false
  | some _, 0 => none
  | some cur, fuel + 1 =>
    if cur = bb then some true else dominatesFuel m bb (m cur) fuel

/-- Symbol record from the parser package (the fields `FindFunctions` reads). -/
structure Symbol where
  Name : String := ""
  Address : Nat := 0
  deriving Repr, DecidableEq, BEq, Inhabited

/-- Go `symbolMap` lookup: name registered for an address (empty-name symbols
are skipped; a missing key yields `""`). -/
def symbolName (syms : List Symbol) (a : Nat) : String :=
  syms.foldl (fun acc s => if s.Name ≠ "" ∧ s.Address = a then s.Name else acc) ""

/-- Go `symbolAddrs` membership test. -/
def isSymbolAddr (syms : List Symbol) (a : Nat) : Bool :=
  syms.any (fun s => s.Name ≠ "" && s.Address = a)

/-- isPaddingOrData from `pkg/disasm/capstone.go`: `int 3`, or a run of more
than five consecutive `nop`s starting here (the Go scan looks at most nine
instructions ahead). -/
def isPaddingOrData (instrs : List Instruction) (i : Nat) : Bool :=
  let inst := instrs.getD i default
  if inst.Mnemonic == "int" && inst.Operands == "3" then true
  else if inst.Mnemonic == "nop" then
    let run := ((instrs.drop (i + 1)).take 9).takeWhile (fun x => x.Mnemonic == "nop")
    1 + run.length > 5
  else false

/-- isPaddingSequence from `pkg/disasm/capstone.go`: more than half of the next
`count` instructions are `int` or `nop`. -/
def isPaddingSequence (instrs : List Instruction) (start count : Nat) : Bool :=
  let w := (instrs.drop start).take count
  (w.filter (fun x => x.Mnemonic == "int" || x.Mnemonic == "nop")).length > count / 2

/-- Pass 1 of FindFunctions: the list of addresses marked as function starts. -/
def funcStarts (instrs : List Instruction) (syms : List Symbol) : List Nat :=
  (List.range instrs.length).foldl (fun acc i =>
    let inst := instrs.getD i default
    if isPaddingOrData instrs i then acc
    else
      let s1 := isSymbolAddr syms inst.Address
      let s2 := decide (0 < i) && (instrs.getD (i - 1) default).Mnemonic == "ret" &&
        !(inst.Mnemonic == "nop") && !(inst.Mnemonic == "int") &&
        !(goStartsWith inst.Mnemonic "unk_")
      let s3 := inst.Mnemonic == "push" &&
        (inst.Operands == "rbp" || inst.Operands == "ebp") &&
        decide (i + 1 < instrs.length) && !(isPaddingSequence instrs i 5)
      let s4 := inst.Mnemonic == "sub" && goContains inst.Operands "rsp" &&
        (decide (i = 0) || (instrs.getD (i - 1) default).Category == CatReturn)
      let s5 := inst.Mnemonic == "mov" && goContains inst.Operands "rsp" &&
        (decide (i = 0) ||
          (decide (0 < i) && (instrs.getD (i - 1) default).Category == CatReturn))
      if s1 || s2 || s3 || s4 || s5 then acc ++ [inst.Address] else acc) []

/-- Go `inst.Address - 1` on uint64 (wraps at zero). -/
def wrapSub1 (a : Nat) : Nat := if a = 0 then 2 ^ 64 - 1 else a - 1

/-- Fresh function opened at a marked start, named from the symbol table or
`sub_<hex>`. -/
def newFunc (addr : Nat) (syms : List Symbol) : GoFunction :=
  let n := symbolName syms addr
  { Name := if n = "" then "sub_" ++ natToHex addr else n, StartAddr := addr }

/-- Close of the current function: set `EndAddr` and emit it unless it has no
instructions (the Go `len(currentFunc.Instructions) > 0` guard). -/
def closeAt (f : GoFunction) (e : Nat) : List GoFunction :=
  if f.Instructions.isEmpty then [] else [{ f with EndAddr := e }]

/-- Append of a visited instruction to the open function, recording the
instruction's own address in `Calls` when its mnemonic is `call`. -/
def appendInst (f : GoFunction) (inst : Instruction) : GoFunction :=
  { f with Instructions := f.Instructions ++ [inst],
           Calls := if inst.Mnemonic == "call" then f.Calls ++ [inst.Address]
                    else f.Calls }

/-- Marked-start handling at the top of the pass-2 loop body: when the current
instruction's address is marked, close any open function at `address - 1` and
open a fresh one. -/
def startStep (starts : List Nat) (syms : List Symbol) (inst : Instruction)
    (cur : Option GoFunction) : List GoFunction × Option GoFunction :=
  if starts.contains inst.Address then
    match cur with
    | some f => (closeAt f (wrapSub1 inst.Address), some (newFunc inst.Address syms))
    | none => ([], some (newFunc inst.Address syms))
  else ([], cur)

/-- Visit of one instruction by the open function (if any): append it, record a
`call`, and close immediately after a `ret` at the ret's own address. -/
def visitStep (inst : Instruction) (cur : Option GoFunction) :
    List GoFunction × Option GoFunction :=
  match cur with
  | some f =>
    let f2 := appendInst f inst
    if inst.Mnemonic == "ret" then (closeAt f2 inst.Address, none)
    else ([], some f2)
  | none => ([], none)

/-- Last-instruction handling: close the function left open at the end of the
stream at the last instruction's address. -/
def lastStep (isLast : Bool) (inst : Instruction) (cur : Option GoFunction) :
    List GoFunction :=
  if isLast then
    match cur with
    | some f => closeAt f inst.Address
    | none => []
  else []

/-- Pass 2 of FindFunctions: walk the stream; close/open at marked starts
(`EndAddr := address - 1`), append every visited instruction, close after
`ret` at the ret's address, and close the final open function at the last
instruction's address. -/
def pass2Go (starts : List Nat) (syms : List Symbol) :
    List Instruction → Option GoFunction → List GoFunction
  | [], _ => []
  | inst :: rest, cur =>
    let st1 := startStep starts syms inst cur
    let st2 := visitStep inst st1.2
    st1.1 ++ st2.1 ++ lastStep rest.isEmpty inst st2.2 ++ pass2Go starts syms rest st2.2

/-- FindFunctions from `pkg/disasm/capstone.go`. -/
def FindFunctions (instrs : List Instruction) (syms : List Symbol) :
    List GoFunction :=
  pass2Go (funcStarts instrs syms) syms instrs none

/-! Concrete instances used by the theorems below. -/

/-- S3 prologue bytes `55 48 89 E5 48 83 EC 10 C3`. -/
def s3bytes : List Nat := [0x55, 0x48, 0x89, 0xE5, 0x48, 0x83, 0xEC, 0x10, 0xC3]

/-- Instruction stream decoded from `s3bytes` at `0x3000` by the linear sweep. -/
def s3instrs : List Instruction :=
  match DisassembleSection s3bytes 0x3000 "x86_64" with
  | .ok l => l
  | .error _ => []

/-- Lift of the S3 prologue function. -/
def s3df : DecompiledFunction := Decompile { Instructions := s3instrs }

/-- Block B0 contents of the S4 scenario: a fall-through instruction. -/
def s4i0 : Instruction :=
  { Address := 0x10, Mnemonic := "nop", Category := CatNop, Size := 1 }

/-- Block B1 contents of the S4 scenario: a fall-through instruction. -/
def s4i1 : Instruction :=
  { Address := 0x11, Mnemonic := "nop", Category := CatNop, Size := 1 }

/-- Block B2 contents of the S4 scenario: an unconditional jump back to B1. -/
def s4i2 : Instruction :=
  { Address := 0x12, Mnemonic := "jmp", Operands := "0x11", Category := CatJump,
    IsBranch := true, BranchTarget := 0x11, Size := 2 }

/-- Blocks of a CFG with edges `B0 -> B1 -> B2 -> B1` (S4). -/
def s4blocks : List BasicBlock :=
  [{ ID := 0, StartAddr := 0x10, EndAddr := 0x10, Instructions := [s4i0] },
   { ID := 1, StartAddr := 0x11, EndAddr := 0x11, Instructions := [s4i1] },
   { ID := 2, StartAddr := 0x12, EndAddr := 0x13, Instructions := [s4i2] }]

/-- Edges wired by `connectBlocks` for the S4 scenario. -/
def s4graph : Graph := connectBlocks s4blocks

/-- Predecessor lists of the S4 CFG, as `computeDominators` reads them. -/
def s4preds : List (List Nat) := (List.range 3).map s4graph.Predecessors

/-- Dominator assignment computed for the S4 CFG. -/
def s4dom : List (Option Nat) := computeDominators 3 s4preds

/-- Call instruction at `0x2000` whose callee target is `0x2015`. -/
def c6call : Instruction :=
  { Address := 0x2000, Mnemonic := "call", Operands := "0x2015",
    Category := CatCall, IsBranch := true, BranchTarget := 0x2015,
    FallsThrough := true, Size := 5, Bytes := [0xE8, 0x10, 0x00, 0x00, 0x00] }

/-- Functions discovered in a stream holding only `c6call`, with a symbol at
its address. -/
def c6funcs : List GoFunction :=
  FindFunctions [c6call] [{ Name := "f", Address := 0x2000 }]

/-- Five-byte call instruction at `0x100` (the instruction preceding a marked
start at `0x105`). -/
def c7call : Instruction :=
  { Address := 0x100, Mnemonic := "call", Operands := "0x500",
    Category := CatCall, IsBranch := true, BranchTarget := 0x500,
    FallsThrough := true, Size := 5, Bytes := [0xE8, 0xFB, 0x02, 0x00, 0x00] }

/-- Instruction at `0x105`, a marked function start. -/
def c7push : Instruction :=
  { Address := 0x105, Mnemonic := "push", Operands := "rbp",
    Category := CatStack, Size := 1, Bytes := [0x55] }

/-- Functions discovered in the two-instruction stream, both addresses marked
as starts via symbols. -/
def c7funcs : List GoFunction :=
  FindFunctions [c7call, c7push]
    [{ Name := "g", Address := 0x100 }, { Name := "h", Address := 0x105 }]

/-- Open function holding only `c7call`, as pass 2 holds it when it reaches
the marked start at `0x105` (used by the C7 witness). -/
def c7open : GoFunction :=
  { Name := "g", StartAddr := 0x100, Instructions := [c7call], Calls := [0x100] }

/-- Instruction decoded from `[0x74, 0x05]` at `0x1000` (short `je`). -/
def jeInst : Instruction :=
  { Address := 0x1000, Bytes := [0x74, 0x05], Mnemonic := "je",
    Operands := "0x1007", Size := 2, Category := CatJump, IsConditional := true,
    IsBranch := true, BranchTarget := 0x1007, FallsThrough := true }

/-- Instruction decoded from `[0x0F, 0x90, 0xC0]` at `0x1000` (`seto`). -/
def setoInst : Instruction :=
  { Address := 0x1000, Bytes := [0x0F, 0x90, 0xC0], Mnemonic := "seto",
    Size := 3, Category := CatDataTransfer }

/-- Instruction decoded from `[0x66, 0xE2, 0x00]` at `0x1000` (`loop` with an
operand-size prefix). -/
def loopPrefixed : Instruction :=
  { Address := 0x1000, Bytes := [0x66, 0xE2, 0x00], Mnemonic := "loop",
    Operands := "0x1002", Size := 3, Category := CatJump, IsBranch := true,
    BranchTarget := 0x1002 }

/-- Instruction decoded from `[0xF6, 0x00]` at `0x1000`: TEST whose imm8 is
consumed past the end of the two-byte buffer. -/
def testOverrun : Instruction :=
  { Address := 0x1000, Mnemonic := "test", Size := 3, Category := CatCompare }

/-- Instruction decoded from `[0x89, 0x45, 0x08]` at `0x1000`: MOV with
mod=1 whose one-byte displacement is displayed but not counted in the size. -/
def movDisp8 : Instruction :=
  { Address := 0x1000, Bytes := [0x89, 0x45], Mnemonic := "mov",
    Operands := "[ebp+0x8], eax", Size := 2, Category := CatDataTransfer }

/-! Specification predicates used by the theorems below. -/

/-- Expected `is_conditional` as the code computes it, as a function of the
opcode byte `op` and the byte at `offset` (the byte after the opcode):
the Jcc families and JRCXZ — and not SETcc or CMOVcc. -/
def condExpectedOp (data : List Nat) (op offset : Nat) : Bool :=
  (decide (0x70 ≤ op) && decide (op ≤ 0x7F)) || decide (op = 0xE3) ||
  (decide (op = 0x0F) &&
    (decide (0x80 ≤ data.getD offset 0) && decide (data.getD offset 0 ≤ 0x8F)))

/-- Expected `is_conditional` of the instruction whose opcode byte sits at
position `pos` of `data`. -/
def condExpected (data : List Nat) (pos : Nat) : Bool :=
  condExpectedOp data (data.getD pos 0) (pos + 1)

/-- Invariant of the claim C10: symmetric, duplicate-free edge lists. -/
def GraphInv (g : Graph) : Prop :=
  (∀ a b, b ∈ g.Successors a ↔ a ∈ g.Predecessors b) ∧
  (∀ a, (g.Successors a).Nodup) ∧ (∀ a, (g.Predecessors a).Nodup)

/-- Invariant of the claim C6 (amended): the `Calls` list is exactly the list
of addresses of the function's own `call` instructions, in order. -/
def callsSpec (f : GoFunction) : Prop :=
  f.Calls = (f.Instructions.filter (fun i => i.Mnemonic == "call")).map
    Instruction.Address


/-- Position-0 opcode byte the decoder selects after the prefix scan. -/
def opcodeAt (data : List Nat) (arch : String) : Nat :=
  data.getD (scanPrefixes data (arch == "x86_64") 0 false).1 0

/-- The byte following the opcode, as the short-branch forms read their rel8. -/
def relByteAt (data : List Nat) (arch : String) : Nat :=
  data.getD ((scanPrefixes data (arch == "x86_64") 0 false).1 + 1) 0

/-! Helper lemmas for the decoder characterization theorems. -/

set_option linter.unusedVariables false
set_option linter.unreachableTactic false
set_option linter.unusedTactic false
set_option maxRecDepth 16000

/-- Arithmetic bridge between the Go form of a loop-family branch target
(`addr + uint64(rel) + 2` with wrap-around) and the claim form
(`addr + 2 + rel` modulo `2 ^ 64`). -/
theorem wrapLoop_eq (a : Nat) (r : Int) :
    (a + wrap64 r + 2) % 2 ^ 64 = wrap64 ((a : Int) + 2 + r) := by
  unfold wrap64
  omega

/-- Outside the Jcc families and JRCXZ the expected conditional flag is false. -/
theorem condExpectedOp_false (data : List Nat) (op offset : Nat)
    (h1 : ¬ (0x70 ≤ op ∧ op ≤ 0x7F)) (h2 : op ≠ 0xE3) (h3 : op ≠ 0x0F) :
    condExpectedOp data op offset = false := by
  unfold condExpectedOp
  rw [← Bool.decide_and, decide_eq_false h1, decide_eq_false h2, decide_eq_false h3]
  simp

/-- Inversion of the shared epilogue `finishInst`. -/
theorem finishInst_ok (data : List Nat) (i : Instruction) (off : Nat)
    (inst : Instruction) (sz : Nat)
    (h : finishInst data i off = .ok (inst, sz)) :
    inst = { i with Size := off,
                    Bytes := if 0 < off ∧ off ≤ data.length then data.take off else [] } ∧
    sz = off := by
  unfold finishInst at h
  have h2 := Except.ok.inj h
  exact ⟨congrArg Prod.fst h2 |>.symm, congrArg Prod.snd h2 |>.symm⟩

/-- A successful `modRMArm` leaves the branch metadata of its input untouched. -/
theorem modRMArm_ok (data : List Nat) (i0 : Instruction) (rexW : Bool)
    (offset : Nat) (mn : String) (cat : Category) (swap : Bool)
    (inst : Instruction) (sz : Nat)
    (h : modRMArm data i0 rexW offset mn cat swap = .ok (inst, sz)) (hsz : sz ≠ 0) :
    inst.IsConditional = i0.IsConditional ∧ inst.BranchTarget = i0.BranchTarget := by
  unfold modRMArm at h
  try simp only [] at h
  repeat' split at h
  all_goals
    first
    | exact absurd (congrArg Prod.snd (Except.ok.inj h)).symm hsz
    | exact Except.noConfusion h
    | · obtain ⟨hi, hs⟩ := finishInst_ok _ _ _ _ _ h
        subst hi
        exact ⟨rfl, rfl⟩

/-- Auxiliary Bool fact for range tests built from two `decide`s. -/
theorem decide_range_false (a b x : Nat) (h : ¬ (a ≤ x ∧ x ≤ b)) :
    (decide (a ≤ x) && decide (x ≤ b)) = false := by
  rw [← Bool.decide_and]
  exact decide_eq_false h

/-- Conditional flag of a successful two-byte (`0x0F`) decode: set exactly for
the long Jcc range `0x80`-`0x8F` of the second opcode byte. -/
theorem decodeTwoByte_isCond (data : List Nat) (i0 : Instruction) (rexW : Bool)
    (op2 offset : Nat) (inst : Instruction) (sz : Nat)
    (h : decodeTwoByte data i0 rexW op2 offset = .ok (inst, sz)) (hsz : sz ≠ 0) :
    inst.IsConditional =
      ((decide (0x80 ≤ op2) && decide (op2 ≤ 0x8F)) || i0.IsConditional) := by
  unfold decodeTwoByte at h
  repeat' split at h
  all_goals
    first
    | exact absurd (congrArg Prod.snd (Except.ok.inj h)).symm hsz
    | · obtain ⟨hi, hs⟩ := finishInst_ok _ _ _ _ _ h
        subst hi
        rfl
    | · obtain ⟨hi, hs⟩ := finishInst_ok _ _ _ _ _ h
        subst hi
        rw [decide_range_false 0x80 0x8F _ (by (try simp_all only [imp_false]); omega)]
        simp

/-- Conditional flag of bucket `decodeOpN0`: none of its opcodes is in the
Jcc/JRCXZ families, so a success never sets `IsConditional`. -/
theorem decodeOpN0_isCond (data : List Nat) (addr : Nat) (is64 rexW : Bool)
    (op offset : Nat) (inst : Instruction) (sz : Nat)
    (h : decodeOpN0 data addr is64 rexW op offset = .ok (inst, sz)) (hsz : sz ≠ 0)
    (hop : op / 16 = 0) :
    inst.IsConditional = condExpectedOp data op offset := by
  unfold decodeOpN0 at h
  try simp only [] at h
  repeat' split at h
  all_goals
    first
    | exact absurd (congrArg Prod.snd (Except.ok.inj h)).symm hsz
    | exact Except.noConfusion h
    | · obtain ⟨hi, hs⟩ := finishInst_ok _ _ _ _ _ h
        subst hi
        rfl
    | · obtain ⟨hi, hs⟩ := finishInst_ok _ _ _ _ _ h
        subst hi
        exact (condExpectedOp_false _ _ _
          (by (try simp_all only [imp_false]); omega)
          (by (try simp_all only [imp_false]); omega)
          (by (try simp_all only [imp_false]); omega)).symm
    | · obtain ⟨hA, hB⟩ := modRMArm_ok _ _ _ _ _ _ _ _ _ h hsz
        exact hA.trans rfl
    | · have hC := decodeTwoByte_isCond _ _ _ _ _ _ _ h hsz
        rw [hC]
        simp [condExpectedOp]

/-- Conditional flag of bucket `decodeOpN1`: none of its opcodes is in the
Jcc/JRCXZ families, so a success never sets `IsConditional`. -/
theorem decodeOpN1_isCond (data : List Nat) (addr : Nat) (is64 rexW : Bool)
    (op offset : Nat) (inst : Instruction) (sz : Nat)
    (h : decodeOpN1 data addr is64 rexW op offset = .ok (inst, sz)) (hsz : sz ≠ 0)
    (hop : op / 16 = 1) :
    inst.IsConditional = condExpectedOp data op offset := by
  unfold decodeOpN1 at h
  try simp only [] at h
  repeat' split at h
  all_goals
    first
    | exact absurd (congrArg Prod.snd (Except.ok.inj h)).symm hsz
    | exact Except.noConfusion h
    | · obtain ⟨hi, hs⟩ := finishInst_ok _ _ _ _ _ h
        subst hi
        rfl
    | · obtain ⟨hi, hs⟩ := finishInst_ok _ _ _ _ _ h
        subst hi
        exact (condExpectedOp_false _ _ _
          (by (try simp_all only [imp_false]); omega)
          (by (try simp_all only [imp_false]); omega)
          (by (try simp_all only [imp_false]); omega)).symm
    | · obtain ⟨hA, hB⟩ := modRMArm_ok _ _ _ _ _ _ _ _ _ h hsz
        exact hA.trans rfl
    | · have hC := decodeTwoByte_isCond _ _ _ _ _ _ _ h hsz
        rw [hC]
        simp [condExpectedOp]

/-- Conditional flag of bucket `decodeOpN2`: none of its opcodes is in the
Jcc/JRCXZ families, so a success never sets `IsConditional`. -/
theorem decodeOpN2_isCond (data : List Nat) (addr : Nat) (is64 rexW : Bool)
    (op offset : Nat) (inst : Instruction) (sz : Nat)
    (h : decodeOpN2 data addr is64 rexW op offset = .ok (inst, sz)) (hsz : sz ≠ 0)
    (hop : op / 16 = 2) :
    inst.IsConditional = condExpectedOp data op offset := by
  unfold decodeOpN2 at h
  try simp only [] at h
  repeat' split at h
  all_goals
    first
    | exact absurd (congrArg Prod.snd (Except.ok.inj h)).symm hsz
    | exact Except.noConfusion h
    | · obtain ⟨hi, hs⟩ := finishInst_ok _ _ _ _ _ h
        subst hi
        rfl
    | · obtain ⟨hi, hs⟩ := finishInst_ok _ _ _ _ _ h
        subst hi
        exact (condExpectedOp_false _ _ _
          (by (try simp_all only [imp_false]); omega)
          (by (try simp_all only [imp_false]); omega)
          (by (try simp_all only [imp_false]); omega)).symm
    | · obtain ⟨hA, hB⟩ := modRMArm_ok _ _ _ _ _ _ _ _ _ h hsz
        exact hA.trans rfl
    | · have hC := decodeTwoByte_isCond _ _ _ _ _ _ _ h hsz
        rw [hC]
        simp [condExpectedOp]

/-- Conditional flag of bucket `decodeOpN3`: none of its opcodes is in the
Jcc/JRCXZ families, so a success never sets `IsConditional`. -/
theorem decodeOpN3_isCond (data : List Nat) (addr : Nat) (is64 rexW : Bool)
    (op offset : Nat) (inst : Instruction) (sz : Nat)
    (h : decodeOpN3 data addr is64 rexW op offset = .ok (inst, sz)) (hsz : sz ≠ 0)
    (hop : op / 16 = 3) :
    inst.IsConditional = condExpectedOp data op offset := by
  unfold decodeOpN3 at h
  try simp only [] at h
  repeat' split at h
  all_goals
    first
    | exact absurd (congrArg Prod.snd (Except.ok.inj h)).symm hsz
    | exact Except.noConfusion h
    | · obtain ⟨hi, hs⟩ := finishInst_ok _ _ _ _ _ h
        subst hi
        rfl
    | · obtain ⟨hi, hs⟩ := finishInst_ok _ _ _ _ _ h
        subst hi
        exact (condExpectedOp_false _ _ _
          (by (try simp_all only [imp_false]); omega)
          (by (try simp_all only [imp_false]); omega)
          (by (try simp_all only [imp_false]); omega)).symm
    | · obtain ⟨hA, hB⟩ := modRMArm_ok _ _ _ _ _ _ _ _ _ h hsz
        exact hA.trans rfl
    | · have hC := decodeTwoByte_isCond _ _ _ _ _ _ _ h hsz
        rw [hC]
        simp [condExpectedOp]

/-- Conditional flag of bucket `decodeOpN4`: none of its opcodes is in the
Jcc/JRCXZ families, so a success never sets `IsConditional`. -/
theorem decodeOpN4_isCond (data : List Nat) (addr : Nat) (is64 rexW : Bool)
    (op offset : Nat) (inst : Instruction) (sz : Nat)
    (h : decodeOpN4 data addr is64 rexW op offset = .ok (inst, sz)) (hsz : sz ≠ 0)
    (hop : op / 16 = 4) :
    inst.IsConditional = condExpectedOp data op offset := by
  unfold decodeOpN4 at h
  try simp only [] at h
  repeat' split at h
  all_goals
    first
    | exact absurd (congrArg Prod.snd (Except.ok.inj h)).symm hsz
    | exact Except.noConfusion h
    | · obtain ⟨hi, hs⟩ := finishInst_ok _ _ _ _ _ h
        subst hi
        rfl
    | · obtain ⟨hi, hs⟩ := finishInst_ok _ _ _ _ _ h
        subst hi
        exact (condExpectedOp_false _ _ _
          (by (try simp_all only [imp_false]); omega)
          (by (try simp_all only [imp_false]); omega)
          (by (try simp_all only [imp_false]); omega)).symm
    | · obtain ⟨hA, hB⟩ := modRMArm_ok _ _ _ _ _ _ _ _ _ h hsz
        exact hA.trans rfl
    | · have hC := decodeTwoByte_isCond _ _ _ _ _ _ _ h hsz
        rw [hC]
        simp [condExpectedOp]

/-- Conditional flag of bucket `decodeOpN5`: none of its opcodes is in the
Jcc/JRCXZ families, so a success never sets `IsConditional`. -/
theorem decodeOpN5_isCond (data : List Nat) (addr : Nat) (is64 rexW : Bool)
    (op offset : Nat) (inst : Instruction) (sz : Nat)
    (h : decodeOpN5 data addr is64 rexW op offset = .ok (inst, sz)) (hsz : sz ≠ 0)
    (hop : op / 16 = 5) :
    inst.IsConditional = condExpectedOp data op offset := by
  unfold decodeOpN5 at h
  try simp only [] at h
  repeat' split at h
  all_goals
    first
    | exact absurd (congrArg Prod.snd (Except.ok.inj h)).symm hsz
    | exact Except.noConfusion h
    | · obtain ⟨hi, hs⟩ := finishInst_ok _ _ _ _ _ h
        subst hi
        rfl
    | · obtain ⟨hi, hs⟩ := finishInst_ok _ _ _ _ _ h
        subst hi
        exact (condExpectedOp_false _ _ _
          (by (try simp_all only [imp_false]); omega)
          (by (try simp_all only [imp_false]); omega)
          (by (try simp_all only [imp_false]); omega)).symm
    | · obtain ⟨hA, hB⟩ := modRMArm_ok _ _ _ _ _ _ _ _ _ h hsz
        exact hA.trans rfl
    | · have hC := decodeTwoByte_isCond _ _ _ _ _ _ _ h hsz
        rw [hC]
        simp [condExpectedOp]

/-- Conditional flag of bucket `decodeOpN6`: none of its opcodes is in the
Jcc/JRCXZ families, so a success never sets `IsConditional`. -/
theorem decodeOpN6_isCond (data : List Nat) (addr : Nat) (is64 rexW : Bool)
    (op offset : Nat) (inst : Instruction) (sz : Nat)
    (h : decodeOpN6 data addr is64 rexW op offset = .ok (inst, sz)) (hsz : sz ≠ 0)
    (hop : op / 16 = 6) :
    inst.IsConditional = condExpectedOp data op offset := by
  unfold decodeOpN6 at h
  try simp only [] at h
  repeat' split at h
  all_goals
    first
    | exact absurd (congrArg Prod.snd (Except.ok.inj h)).symm hsz
    | exact Except.noConfusion h
    | · obtain ⟨hi, hs⟩ := finishInst_ok _ _ _ _ _ h
        subst hi
        rfl
    | · obtain ⟨hi, hs⟩ := finishInst_ok _ _ _ _ _ h
        subst hi
        exact (condExpectedOp_false _ _ _
          (by (try simp_all only [imp_false]); omega)
          (by (try simp_all only [imp_false]); omega)
          (by (try simp_all only [imp_false]); omega)).symm
    | · obtain ⟨hA, hB⟩ := modRMArm_ok _ _ _ _ _ _ _ _ _ h hsz
        exact hA.trans rfl
    | · have hC := decodeTwoByte_isCond _ _ _ _ _ _ _ h hsz
        rw [hC]
        simp [condExpectedOp]

/-- Conditional flag of bucket `decodeOpN8`: none of its opcodes is in the
Jcc/JRCXZ families, so a success never sets `IsConditional`. -/
theorem decodeOpN8_isCond (data : List Nat) (addr : Nat) (is64 rexW : Bool)
    (op offset : Nat) (inst : Instruction) (sz : Nat)
    (h : decodeOpN8 data addr is64 rexW op offset = .ok (inst, sz)) (hsz : sz ≠ 0)
    (hop : op / 16 = 8) :
    inst.IsConditional = condExpectedOp data op offset := by
  unfold decodeOpN8 at h
  try simp only [] at h
  repeat' split at h
  all_goals
    first
    | exact absurd (congrArg Prod.snd (Except.ok.inj h)).symm hsz
    | exact Except.noConfusion h
    | · obtain ⟨hi, hs⟩ := finishInst_ok _ _ _ _ _ h
        subst hi
        rfl
    | · obtain ⟨hi, hs⟩ := finishInst_ok _ _ _ _ _ h
        subst hi
        exact (condExpectedOp_false _ _ _
          (by (try simp_all only [imp_false]); omega)
          (by (try simp_all only [imp_false]); omega)
          (by (try simp_all only [imp_false]); omega)).symm
    | · obtain ⟨hA, hB⟩ := modRMArm_ok _ _ _ _ _ _ _ _ _ h hsz
        exact hA.trans rfl
    | · have hC := decodeTwoByte_isCond _ _ _ _ _ _ _ h hsz
        rw [hC]
        simp [condExpectedOp]

/-- Conditional flag of bucket `decodeOpN9`: none of its opcodes is in the
Jcc/JRCXZ families, so a success never sets `IsConditional`. -/
theorem decodeOpN9_isCond (data : List Nat) (addr : Nat) (is64 rexW : Bool)
    (op offset : Nat) (inst : Instruction) (sz : Nat)
    (h : decodeOpN9 data addr is64 rexW op offset = .ok (inst, sz)) (hsz : sz ≠ 0)
    (hop : op / 16 = 9) :
    inst.IsConditional = condExpectedOp data op offset := by
  unfold decodeOpN9 at h
  try simp only [] at h
  repeat' split at h
  all_goals
    first
    | exact absurd (congrArg Prod.snd (Except.ok.inj h)).symm hsz
    | exact Except.noConfusion h
    | · obtain ⟨hi, hs⟩ := finishInst_ok _ _ _ _ _ h
        subst hi
        rfl
    | · obtain ⟨hi, hs⟩ := finishInst_ok _ _ _ _ _ h
        subst hi
        exact (condExpectedOp_false _ _ _
          (by (try simp_all only [imp_false]); omega)
          (by (try simp_all only [imp_false]); omega)
          (by (try simp_all only [imp_false]); omega)).symm
    | · obtain ⟨hA, hB⟩ := modRMArm_ok _ _ _ _ _ _ _ _ _ h hsz
        exact hA.trans rfl
    | · have hC := decodeTwoByte_isCond _ _ _ _ _ _ _ h hsz
        rw [hC]
        simp [condExpectedOp]

/-- Conditional flag of bucket `decodeOpNA`: none of its opcodes is in the
Jcc/JRCXZ families, so a success never sets `IsConditional`. -/
theorem decodeOpNA_isCond (data : List Nat) (addr : Nat) (is64 rexW : Bool)
    (op offset : Nat) (inst : Instruction) (sz : Nat)
    (h : decodeOpNA data addr is64 rexW op offset = .ok (inst, sz)) (hsz : sz ≠ 0)
    (hop : op / 16 = 10) :
    inst.IsConditional = condExpectedOp data op offset := by
  unfold decodeOpNA at h
  try simp only [] at h
  repeat' split at h
  all_goals
    first
    | exact absurd (congrArg Prod.snd (Except.ok.inj h)).symm hsz
    | exact Except.noConfusion h
    | · obtain ⟨hi, hs⟩ := finishInst_ok _ _ _ _ _ h
        subst hi
        rfl
    | · obtain ⟨hi, hs⟩ := finishInst_ok _ _ _ _ _ h
        subst hi
        exact (condExpectedOp_false _ _ _
          (by (try simp_all only [imp_false]); omega)
          (by (try simp_all only [imp_false]); omega)
          (by (try simp_all only [imp_false]); omega)).symm
    | · obtain ⟨hA, hB⟩ := modRMArm_ok _ _ _ _ _ _ _ _ _ h hsz
        exact hA.trans rfl
    | · have hC := decodeTwoByte_isCond _ _ _ _ _ _ _ h hsz
        rw [hC]
        simp [condExpectedOp]

/-- Conditional flag of bucket `decodeOpNB`: none of its opcodes is in the
Jcc/JRCXZ families, so a success never sets `IsConditional`. -/
theorem decodeOpNB_isCond (data : List Nat) (addr : Nat) (is64 rexW : Bool)
    (op offset : Nat) (inst : Instruction) (sz : Nat)
    (h : decodeOpNB data addr is64 rexW op offset = .ok (inst, sz)) (hsz : sz ≠ 0)
    (hop : op / 16 = 11) :
    inst.IsConditional = condExpectedOp data op offset := by
  unfold decodeOpNB at h
  try simp only [] at h
  repeat' split at h
  all_goals
    first
    | exact absurd (congrArg Prod.snd (Except.ok.inj h)).symm hsz
    | exact Except.noConfusion h
    | · obtain ⟨hi, hs⟩ := finishInst_ok _ _ _ _ _ h
        subst hi
        rfl
    | · obtain ⟨hi, hs⟩ := finishInst_ok _ _ _ _ _ h
        subst hi
        exact (condExpectedOp_false _ _ _
          (by (try simp_all only [imp_false]); omega)
          (by (try simp_all only [imp_false]); omega)
          (by (try simp_all only [imp_false]); omega)).symm
    | · obtain ⟨hA, hB⟩ := modRMArm_ok _ _ _ _ _ _ _ _ _ h hsz
        exact hA.trans rfl
    | · have hC := decodeTwoByte_isCond _ _ _ _ _ _ _ h hsz
        rw [hC]
        simp [condExpectedOp]

/-- Conditional flag of bucket `decodeOpNC`: none of its opcodes is in the
Jcc/JRCXZ families, so a success never sets `IsConditional`. -/
theorem decodeOpNC_isCond (data : List Nat) (addr : Nat) (is64 rexW : Bool)
    (op offset : Nat) (inst : Instruction) (sz : Nat)
    (h : decodeOpNC data addr is64 rexW op offset = .ok (inst, sz)) (hsz : sz ≠ 0)
    (hop : op / 16 = 12) :
    inst.IsConditional = condExpectedOp data op offset := by
  unfold decodeOpNC at h
  try simp only [] at h
  repeat' split at h
  all_goals
    first
    | exact absurd (congrArg Prod.snd (Except.ok.inj h)).symm hsz
    | exact Except.noConfusion h
    | · obtain ⟨hi, hs⟩ := finishInst_ok _ _ _ _ _ h
        subst hi
        rfl
    | · obtain ⟨hi, hs⟩ := finishInst_ok _ _ _ _ _ h
        subst hi
        exact (condExpectedOp_false _ _ _
          (by (try simp_all only [imp_false]); omega)
          (by (try simp_all only [imp_false]); omega)
          (by (try simp_all only [imp_false]); omega)).symm
    | · obtain ⟨hA, hB⟩ := modRMArm_ok _ _ _ _ _ _ _ _ _ h hsz
        exact hA.trans rfl
    | · have hC := decodeTwoByte_isCond _ _ _ _ _ _ _ h hsz
        rw [hC]
        simp [condExpectedOp]

/-- Conditional flag of bucket `decodeOpND`: none of its opcodes is in the
Jcc/JRCXZ families, so a success never sets `IsConditional`. -/
theorem decodeOpND_isCond (data : List Nat) (addr : Nat) (is64 rexW : Bool)
    (op offset : Nat) (inst : Instruction) (sz : Nat)
    (h : decodeOpND data addr is64 rexW op offset = .ok (inst, sz)) (hsz : sz ≠ 0)
    (hop : op / 16 = 13) :
    inst.IsConditional = condExpectedOp data op offset := by
  unfold decodeOpND at h
  try simp only [] at h
  repeat' split at h
  all_goals
    first
    | exact absurd (congrArg Prod.snd (Except.ok.inj h)).symm hsz
    | exact Except.noConfusion h
    | · obtain ⟨hi, hs⟩ := finishInst_ok _ _ _ _ _ h
        subst hi
        rfl
    | · obtain ⟨hi, hs⟩ := finishInst_ok _ _ _ _ _ h
        subst hi
        exact (condExpectedOp_false _ _ _
          (by (try simp_all only [imp_false]); omega)
          (by (try simp_all only [imp_false]); omega)
          (by (try simp_all only [imp_false]); omega)).symm
    | · obtain ⟨hA, hB⟩ := modRMArm_ok _ _ _ _ _ _ _ _ _ h hsz
        exact hA.trans rfl
    | · have hC := decodeTwoByte_isCond _ _ _ _ _ _ _ h hsz
        rw [hC]
        simp [condExpectedOp]

/-- Conditional flag of bucket `decodeOpNF`: none of its opcodes is in the
Jcc/JRCXZ families, so a success never sets `IsConditional`. -/
theorem decodeOpNF_isCond (data : List Nat) (addr : Nat) (is64 rexW : Bool)
    (op offset : Nat) (inst : Instruction) (sz : Nat)
    (h : decodeOpNF data addr is64 rexW op offset = .ok (inst, sz)) (hsz : sz ≠ 0)
    (hop : op / 16 = 15) :
    inst.IsConditional = condExpectedOp data op offset := by
  unfold decodeOpNF at h
  try simp only [] at h
  repeat' split at h
  all_goals
    first
    | exact absurd (congrArg Prod.snd (Except.ok.inj h)).symm hsz
    | exact Except.noConfusion h
    | · obtain ⟨hi, hs⟩ := finishInst_ok _ _ _ _ _ h
        subst hi
        rfl
    | · obtain ⟨hi, hs⟩ := finishInst_ok _ _ _ _ _ h
        subst hi
        exact (condExpectedOp_false _ _ _
          (by (try simp_all only [imp_false]); omega)
          (by (try simp_all only [imp_false]); omega)
          (by (try simp_all only [imp_false]); omega)).symm
    | · obtain ⟨hA, hB⟩ := modRMArm_ok _ _ _ _ _ _ _ _ _ h hsz
        exact hA.trans rfl
    | · have hC := decodeTwoByte_isCond _ _ _ _ _ _ _ h hsz
        rw [hC]
        simp [condExpectedOp]

/-- Branch properties of bucket `decodeOpN7` (the short Jcc family):
conditional flag and short-branch target forms. -/
theorem decodeOpN7_props (data : List Nat) (addr : Nat) (is64 rexW : Bool)
    (op offset : Nat) (inst : Instruction) (sz : Nat)
    (h : decodeOpN7 data addr is64 rexW op offset = .ok (inst, sz)) (hsz : sz ≠ 0)
    (hop : op / 16 = 7) :
    inst.IsConditional = condExpectedOp data op offset ∧
    (((0x70 ≤ op ∧ op ≤ 0x7F) ∨ op = 0xEB) →
      inst.BranchTarget = wrap64 ((addr : Int) + (sz : Int) + int8val (data.getD offset 0))) ∧
    ((0xE0 ≤ op ∧ op ≤ 0xE3) →
      inst.BranchTarget = wrap64 ((addr : Int) + 2 + int8val (data.getD offset 0))) := by
  unfold decodeOpN7 at h
  try simp only [] at h
  repeat' split at h
  all_goals
    first
    | exact absurd (congrArg Prod.snd (Except.ok.inj h)).symm hsz
    | exact Except.noConfusion h
    | · obtain ⟨hi, hs⟩ := finishInst_ok _ _ _ _ _ h
        subst hi; subst hs
        exact ⟨rfl, fun hop2 => by (try simp_all only [imp_false]); omega,
               fun hop2 => by (try simp_all only [imp_false]); omega⟩
    | · obtain ⟨hi, hs⟩ := finishInst_ok _ _ _ _ _ h
        subst hi; subst hs
        exact ⟨rfl, fun hop2 => rfl,
               fun hop2 => by (try simp_all only [imp_false]); omega⟩
    | · obtain ⟨hi, hs⟩ := finishInst_ok _ _ _ _ _ h
        subst hi; subst hs
        exact ⟨rfl, fun hop2 => by (try simp_all only [imp_false]); omega,
               fun hop2 => wrapLoop_eq addr _⟩
    | · obtain ⟨hi, hs⟩ := finishInst_ok _ _ _ _ _ h
        subst hi; subst hs
        exact ⟨(condExpectedOp_false _ _ _
                  (by (try simp_all only [imp_false]); omega)
                  (by (try simp_all only [imp_false]); omega)
                  (by (try simp_all only [imp_false]); omega)).symm,
               fun hop2 => by (try simp_all only [imp_false]); omega,
               fun hop2 => by (try simp_all only [imp_false]); omega⟩

/-- Branch properties of bucket `decodeOpNE` (the loop/JRCXZ and relative jump/call opcodes):
conditional flag and short-branch target forms. -/
theorem decodeOpNE_props (data : List Nat) (addr : Nat) (is64 rexW : Bool)
    (op offset : Nat) (inst : Instruction) (sz : Nat)
    (h : decodeOpNE data addr is64 rexW op offset = .ok (inst, sz)) (hsz : sz ≠ 0)
    (hop : op / 16 = 14) :
    inst.IsConditional = condExpectedOp data op offset ∧
    (((0x70 ≤ op ∧ op ≤ 0x7F) ∨ op = 0xEB) →
      inst.BranchTarget = wrap64 ((addr : Int) + (sz : Int) + int8val (data.getD offset 0))) ∧
    ((0xE0 ≤ op ∧ op ≤ 0xE3) →
      inst.BranchTarget = wrap64 ((addr : Int) + 2 + int8val (data.getD offset 0))) := by
  unfold decodeOpNE at h
  try simp only [] at h
  repeat' split at h
  all_goals
    first
    | exact absurd (congrArg Prod.snd (Except.ok.inj h)).symm hsz
    | exact Except.noConfusion h
    | · obtain ⟨hi, hs⟩ := finishInst_ok _ _ _ _ _ h
        subst hi; subst hs
        exact ⟨rfl, fun hop2 => by (try simp_all only [imp_false]); omega,
               fun hop2 => by (try simp_all only [imp_false]); omega⟩
    | · obtain ⟨hi, hs⟩ := finishInst_ok _ _ _ _ _ h
        subst hi; subst hs
        exact ⟨rfl, fun hop2 => rfl,
               fun hop2 => by (try simp_all only [imp_false]); omega⟩
    | · obtain ⟨hi, hs⟩ := finishInst_ok _ _ _ _ _ h
        subst hi; subst hs
        exact ⟨rfl, fun hop2 => by (try simp_all only [imp_false]); omega,
               fun hop2 => wrapLoop_eq addr _⟩
    | · obtain ⟨hi, hs⟩ := finishInst_ok _ _ _ _ _ h
        subst hi; subst hs
        exact ⟨(condExpectedOp_false _ _ _
                  (by (try simp_all only [imp_false]); omega)
                  (by (try simp_all only [imp_false]); omega)
                  (by (try simp_all only [imp_false]); omega)).symm,
               fun hop2 => by (try simp_all only [imp_false]); omega,
               fun hop2 => by (try simp_all only [imp_false]); omega⟩

/-- Branch properties of a successful `decodeOpcode`: the conditional flag is
set exactly for the Jcc families and JRCXZ, and the short-branch target forms
of the `0x70`-`0x7F`/`0xEB` and `0xE0`-`0xE3` families. -/
theorem decodeOpcode_props (data : List Nat) (addr : Nat) (is64 rexW : Bool)
    (op offset : Nat) (inst : Instruction) (sz : Nat)
    (h : decodeOpcode data addr is64 rexW op offset = .ok (inst, sz)) (hsz : sz ≠ 0) :
    inst.IsConditional = condExpectedOp data op offset ∧
    (((0x70 ≤ op ∧ op ≤ 0x7F) ∨ op = 0xEB) →
      inst.BranchTarget = wrap64 ((addr : Int) + (sz : Int) + int8val (data.getD offset 0))) ∧
    ((0xE0 ≤ op ∧ op ≤ 0xE3) →
      inst.BranchTarget = wrap64 ((addr : Int) + 2 + int8val (data.getD offset 0))) := by
  unfold decodeOpcode at h
  try simp only [] at h
  split at h
  · exact ⟨decodeOpN0_isCond data addr is64 rexW op offset inst sz h hsz (by omega),
           fun hop2 => by omega, fun hop2 => by omega⟩
  · exact ⟨decodeOpN1_isCond data addr is64 rexW op offset inst sz h hsz (by omega),
           fun hop2 => by omega, fun hop2 => by omega⟩
  · exact ⟨decodeOpN2_isCond data addr is64 rexW op offset inst sz h hsz (by omega),
           fun hop2 => by omega, fun hop2 => by omega⟩
  · exact ⟨decodeOpN3_isCond data addr is64 rexW op offset inst sz h hsz (by omega),
           fun hop2 => by omega, fun hop2 => by omega⟩
  · exact ⟨decodeOpN4_isCond data addr is64 rexW op offset inst sz h hsz (by omega),
           fun hop2 => by omega, fun hop2 => by omega⟩
  · exact ⟨decodeOpN5_isCond data addr is64 rexW op offset inst sz h hsz (by omega),
           fun hop2 => by omega, fun hop2 => by omega⟩
  · exact ⟨decodeOpN6_isCond data addr is64 rexW op offset inst sz h hsz (by omega),
           fun hop2 => by omega, fun hop2 => by omega⟩
  · exact decodeOpN7_props data addr is64 rexW op offset inst sz h hsz (by omega)
  · exact ⟨decodeOpN8_isCond data addr is64 rexW op offset inst sz h hsz (by omega),
           fun hop2 => by omega, fun hop2 => by omega⟩
  · exact ⟨decodeOpN9_isCond data addr is64 rexW op offset inst sz h hsz (by omega),
           fun hop2 => by omega, fun hop2 => by omega⟩
  · exact ⟨decodeOpNA_isCond data addr is64 rexW op offset inst sz h hsz (by omega),
           fun hop2 => by omega, fun hop2 => by omega⟩
  · exact ⟨decodeOpNB_isCond data addr is64 rexW op offset inst sz h hsz (by omega),
           fun hop2 => by omega, fun hop2 => by omega⟩
  · exact ⟨decodeOpNC_isCond data addr is64 rexW op offset inst sz h hsz (by omega),
           fun hop2 => by omega, fun hop2 => by omega⟩
  · exact ⟨decodeOpND_isCond data addr is64 rexW op offset inst sz h hsz (by omega),
           fun hop2 => by omega, fun hop2 => by omega⟩
  · exact decodeOpNE_props data addr is64 rexW op offset inst sz h hsz (by omega)
  · exact ⟨decodeOpNF_isCond data addr is64 rexW op offset inst sz h hsz (by omega),
           fun hop2 => by omega, fun hop2 => by omega⟩
  · obtain ⟨hi, hs⟩ := finishInst_ok _ _ _ _ _ h
    subst hi; subst hs
    exact ⟨(condExpectedOp_false _ _ _
              (by (try simp_all only [imp_false]); omega)
              (by (try simp_all only [imp_false]); omega)
              (by (try simp_all only [imp_false]); omega)).symm,
           fun hop2 => by (try simp_all only [imp_false]); omega,
           fun hop2 => by (try simp_all only [imp_false]); omega⟩


/-! Helper lemmas for the claim theorems. -/

/-- The S4 `Dominates` walk never answers when started at the entry block:
the entry's recorded dominator is itself. -/
theorem domWalk0_none :
    ∀ fuel, dominatesFuel (fun i => s4dom.getD i none) 1 (some 0) fuel = none := by
  intro fuel
  induction fuel with
  | zero => rfl
  | succ n ih => simpa [dominatesFuel] using ih

/-- `appendInst` preserves the call-site characterization of `Calls`. -/
theorem appendInst_callsSpec (f : GoFunction) (inst : Instruction)
    (h : callsSpec f) : callsSpec (appendInst f inst) := by
  unfold callsSpec appendInst at *
  by_cases hc : (inst.Mnemonic == "call") = true
  · simp [hc, List.filter_append, h]
  · simp at hc
    simp [hc, List.filter_append, h]

/-- `closeAt` emits only functions satisfying the call-site characterization. -/
theorem closeAt_callsSpec (f : GoFunction) (e : Nat) (h : callsSpec f) :
    ∀ g ∈ closeAt f e, callsSpec g := by
  intro g hg
  unfold closeAt at hg
  split at hg
  · exact absurd hg (List.not_mem_nil g)
  · rw [List.mem_singleton] at hg
    subst hg
    exact h

/-- A freshly opened function has empty `Calls` and `Instructions`. -/
theorem newFunc_callsSpec (a : Nat) (syms : List Symbol) :
    callsSpec (newFunc a syms) := rfl

/-- `visitStep` preserves the call-site characterization on both outputs. -/
theorem visitStep_callsSpec (inst : Instruction) (cur : Option GoFunction)
    (h : ∀ f, cur = some f → callsSpec f) :
    (∀ g ∈ (visitStep inst cur).1, callsSpec g) ∧
    (∀ f, (visitStep inst cur).2 = some f → callsSpec f) := by
  cases cur with
  | none =>
    exact ⟨fun g hg => absurd hg (List.not_mem_nil g),
           fun f2 hf2 => Option.noConfusion hf2⟩
  | some f =>
    have h2 := appendInst_callsSpec f inst (h f rfl)
    unfold visitStep
    simp only []
    split
    · exact ⟨closeAt_callsSpec _ _ h2, fun f2 hf2 => Option.noConfusion hf2⟩
    · exact ⟨fun g hg => absurd hg (List.not_mem_nil g),
             fun f2 hf2 => (Option.some.inj hf2) ▸ h2⟩

/-- `startStep` preserves the call-site characterization on both outputs. -/
theorem startStep_callsSpec (starts : List Nat) (syms : List Symbol)
    (inst : Instruction) (cur : Option GoFunction)
    (h : ∀ f, cur = some f → callsSpec f) :
    (∀ g ∈ (startStep starts syms inst cur).1, callsSpec g) ∧
    (∀ f, (startStep starts syms inst cur).2 = some f → callsSpec f) := by
  unfold startStep
  split
  · match cur with
    | some f =>
      refine ⟨closeAt_callsSpec f _ (h f rfl), ?_⟩
      intro f2 hf2
      rw [Option.some.inj hf2.symm]
      exact newFunc_callsSpec _ _
    | none =>
      refine ⟨by intro g hg; exact absurd hg (List.not_mem_nil g), ?_⟩
      intro f2 hf2
      rw [Option.some.inj hf2.symm]
      exact newFunc_callsSpec _ _
  · exact ⟨by intro g hg; exact absurd hg (List.not_mem_nil g), h⟩

/-- `lastStep` emits only functions satisfying the characterization. -/
theorem lastStep_callsSpec (isLast : Bool) (inst : Instruction)
    (cur : Option GoFunction) (h : ∀ f, cur = some f → callsSpec f) :
    ∀ g ∈ lastStep isLast inst cur, callsSpec g := by
  unfold lastStep
  split
  · match cur with
    | some f => exact closeAt_callsSpec f _ (h f rfl)
    | none => intro g hg; exact absurd hg (List.not_mem_nil g)
  · intro g hg; exact absurd hg (List.not_mem_nil g)

/-- Pass-2 invariant: every emitted function's `Calls` list is the list of
its own `call` instruction addresses. -/
theorem pass2Go_callsSpec (starts : List Nat) (syms : List Symbol) :
    ∀ (instrs : List Instruction) (cur : Option GoFunction),
      (∀ f, cur = some f → callsSpec f) →
      ∀ g ∈ pass2Go starts syms instrs cur, callsSpec g := by
  intro instrs
  induction instrs with
  | nil => intro cur h g hg; exact absurd hg (List.not_mem_nil g)
  | cons inst rest ih =>
    intro cur h g hg
    rw [pass2Go] at hg
    simp only [List.mem_append] at hg
    have h1 := startStep_callsSpec starts syms inst cur h
    have h2 := visitStep_callsSpec inst (startStep starts syms inst cur).2 h1.2
    rcases hg with ((hg | hg) | hg) | hg
    · exact h1.1 g hg
    · exact h2.1 g hg
    · exact lastStep_callsSpec _ inst _ h2.2 g hg
    · exact ih _ h2.2 g hg

/-- Appending a fresh element to a duplicate-free list keeps it duplicate-free. -/
theorem nodup_concat_of (l : List Nat) (b : Nat) (hb : b ∉ l) (hn : l.Nodup) :
    (l ++ [b]).Nodup := by
  rw [List.nodup_append]
  refine ⟨hn, List.nodup_singleton b, ?_⟩
  intro x hx hxb
  rw [List.mem_singleton] at hxb
  exact hb (hxb ▸ hx)

/-- The edge-free graph satisfies the symmetry/no-duplicate invariant. -/
theorem graphInv_empty : GraphInv Graph.empty := by
  refine ⟨fun a b => ?_, fun a => List.nodup_nil, fun a => List.nodup_nil⟩
  simp [Graph.empty]

/-- `AddSuccessor` preserves the symmetry/no-duplicate invariant. -/
theorem addSuccessor_inv (g : Graph) (a b : Nat) (hg : GraphInv g) :
    GraphInv (AddSuccessor g a b) := by
  obtain ⟨hsym, hns, hnp⟩ := hg
  unfold AddSuccessor
  split
  · exact ⟨hsym, hns, hnp⟩
  · rename_i hnotmem
    simp only []
    split
    · rename_i hmem
      exact absurd ((hsym a b).mpr hmem) hnotmem
    · rename_i hnotpred
      refine ⟨fun x y => ?_, fun x => ?_, fun y => ?_⟩
      · change y ∈ (if x = a then g.Successors a ++ [b] else g.Successors x) ↔
          x ∈ (if y = b then g.Predecessors b ++ [a] else g.Predecessors y)
        by_cases hx : x = a <;> by_cases hy : y = b
        · rw [if_pos hx, if_pos hy, hx, hy]
          simp
        · rw [if_pos hx, if_neg hy, hx]
          rw [List.mem_append, List.mem_singleton, or_iff_left hy]
          exact hsym a y
        · rw [if_neg hx, if_pos hy, hy]
          rw [List.mem_append, List.mem_singleton, or_iff_left hx]
          exact hsym x b
        · rw [if_neg hx, if_neg hy]
          exact hsym x y
      · by_cases hx : x = a
        · subst hx
          simp only [if_pos rfl]
          exact nodup_concat_of _ _ hnotmem (hns x)
        · simp only [if_neg hx]
          exact hns x
      · by_cases hy : y = b
        · subst hy
          simp only [if_pos rfl]
          exact nodup_concat_of _ _ hnotpred (hnp y)
        · simp only [if_neg hy]
          exact hnp y

/-- One `connectBlocks` step preserves the invariant: every edge it adds goes
through `AddSuccessor`. -/
theorem connectOne_inv (bs : List BasicBlock) (g : Graph) (i : Nat)
    (b : BasicBlock) (hg : GraphInv g) : GraphInv (connectOne bs g i b) := by
  unfold connectOne
  repeat'
    first
    | exact hg
    | apply addSuccessor_inv
    | split
    | simp only []

/-- The `connectBlocks` fold preserves the invariant from any starting graph. -/
theorem foldl_connect_inv (bs : List BasicBlock) :
    ∀ (l : List Nat) (g : Graph), GraphInv g →
      GraphInv (l.foldl (fun g i => connectOne bs g i (bs.getD i default)) g) := by
  intro l
  induction l with
  | nil => intro g hg; exact hg
  | cons x xs ih =>
    intro g hg
    exact ih _ (connectOne_inv bs g x (bs.getD x default) hg)


/-! Claim theorems.  Each theorem settles one claim of the specification
against the embedded code. -/

/-- C1: the specification says a too-short input makes the decoder return
size 0 rather than fault; on input `89 45` (MOV whose ModR/M byte `0x45` has
mod=1, so a one-byte displacement must follow) the code instead reads past
the end of the slice: `decodeModRMDetailed` indexes `data[0]` with no bounds
check, an index-out-of-range panic (`.error ()` in the embedding). -/
theorem c1_truncated_disp8_panics :
    EnhancedDecodeInstruction [0x89, 0x45] 0x1000 "x86_64" = .error () ∧
    decodeModRMDetailed 0x45 [] true = .error () := ⟨rfl, rfl⟩

/-- C2: on the S4 control-flow graph `B0 -> B1 -> B2 -> B1` the dominator
computation leaves every block with immediate dominator B0 (the entry is its
own dominator, and B2 gets B0 rather than B1 because the fixed-point loop
intersects `pred.DominatedBy` instead of `pred`), and the `Dominates` walk
used by loop detection never terminates when asked whether B1 dominates B2:
from B2 the `DominatedBy` chain reaches the entry, whose `DominatedBy` is
itself, so the walk yields no answer for any number of steps. -/
theorem c2_dominates_walk_diverges :
    s4dom = [some 0, some 0, some 0] ∧
    ∀ fuel, dominatesFuel (fun i => s4dom.getD i none) 1 (some 2) fuel = none := by
  refine ⟨rfl, fun fuel => ?_⟩
  match fuel with
  | 0 => rfl
  | n + 1 => exact domWalk0_none n

/-- C3: a decode success can report a size larger than the input: on
`F6 00` (TEST r/m8, imm8) the imm8 is counted with no length check, so the
returned size is 3 on a two-byte slice — and the epilogue's
`size <= len(data)` guard then leaves `Bytes` empty, so
`size == len(bytes_returned)` fails as well. -/
theorem c3_size_exceeds_buffer :
    EnhancedDecodeInstruction [0xF6, 0x00] 0x1000 "x86_64" = .ok (testOverrun, 3) ∧
    ([0xF6, 0x00] : List Nat).length < 3 ∧
    testOverrun.Bytes.length ≠ testOverrun.Size := ⟨rfl, by decide, by decide⟩

/-- C4: the mod=1 one-byte displacement is rendered into the operand text but
not counted in the size: `89 45 08` (MOV [ebp+0x8], eax) decodes with operand
`[ebp+0x8]` yet size 2, so the sweep resumes inside the displacement byte
instead of past it. -/
theorem c4_disp8_not_counted :
    EnhancedDecodeInstruction [0x89, 0x45, 0x08] 0x1000 "x86_64" = .ok (movDisp8, 2) ∧
    goContains movDisp8.Operands "0x8" = true ∧
    movDisp8.Size = 2 ∧ ([0x89, 0x45, 0x08] : List Nat).length = 3 :=
  ⟨rfl, rfl, rfl, rfl⟩

/-- C5: the S3 prologue `55 48 89 E5 48 83 EC 10 C3` at `0x3000` lifts to one
basic block with `HasReturn`, but to three operations, not the specified
four: the `push` skip guard compares the operand against `"rbp"` while the
decoder names it `"ebp"`, so the prologue push is lifted into an
Assign-comment operation, and the register-to-register `mov` arm builds an
Assign whose type is the zero value with an empty comment, which the
emission guard `op.Type != 0 || op.Comment != ""` silently drops. -/
theorem c5_prologue_lift :
    (DisassembleSection s3bytes 0x3000 "x86_64").map (List.map Instruction.Mnemonic) =
      .ok ["push", "mov", "sub", "ret"] ∧
    (createBasicBlocks s3instrs (identifyLeaders s3instrs)).length = 1 ∧
    s3df.HasReturn = true ∧
    s3df.Operations.map Operation.Typ =
      [OpType.OpAssign, OpType.OpArithmetic, OpType.OpReturn] ∧
    (s3df.Operations.getD 0 default).Comment = "save ebp" :=
  ⟨rfl, rfl, rfl, rfl, rfl⟩

/-- C6 (amended): every element of a discovered function's `Calls` list is
the address of one of the function's own `call` instructions — the call
site, recorded in visit order — not the callee's target address as the
specification states. -/
theorem c6_calls_are_call_sites (instrs : List Instruction) (syms : List Symbol) :
    ∀ f ∈ FindFunctions instrs syms, callsSpec f :=
  pass2Go_callsSpec (funcStarts instrs syms) syms instrs none
    (by intro f hf; exact absurd hf (by simp))

/-- Witness for C6: the single function discovered around `c6call` satisfies
the call-site characterization. -/
theorem c6_calls_witness : callsSpec (c6funcs.getD 0 default) :=
  c6_calls_are_call_sites [c6call] [{ Name := "f", Address := 0x2000 }]
    (c6funcs.getD 0 default) (List.mem_cons_self _ _)

/-- Counterexample for C6 as stated: the function around the call at `0x2000`
targeting `0x2015` records `0x2000` (the call site), not the callee `0x2015`. -/
theorem c6_calls_counterexample :
    c6funcs.map GoFunction.Calls = [[0x2000]] ∧
    c6funcs.map (fun f => f.Instructions.map Instruction.BranchTarget) = [[0x2015]] ∧
    (0x2000 : Nat) ≠ 0x2015 := ⟨rfl, rfl, by decide⟩

/-- C7 (amended): when pass 2 reaches a marked start with a non-empty
function open, the function emitted at that point carries
`EndAddr = start address - 1` (with uint64 wrap at zero) — which equals the
previous instruction's address only when that instruction is one byte long. -/
theorem c7_close_at_start_minus_one (starts : List Nat) (syms : List Symbol)
    (inst : Instruction) (rest : List Instruction) (f : GoFunction)
    (h1 : starts.contains inst.Address = true)
    (h2 : f.Instructions.isEmpty = false) :
    ∃ tail, pass2Go starts syms (inst :: rest) (some f) =
      { f with EndAddr := wrapSub1 inst.Address } :: tail := by
  have e1 : startStep starts syms inst (some f) =
      (closeAt f (wrapSub1 inst.Address), some (newFunc inst.Address syms)) := by
    unfold startStep
    rw [if_pos h1]
  have e2 : closeAt f (wrapSub1 inst.Address) =
      [{ f with EndAddr := wrapSub1 inst.Address }] := by
    unfold closeAt
    simp [h2]
  refine ⟨(visitStep inst (some (newFunc inst.Address syms))).1 ++
      (lastStep rest.isEmpty inst
        (visitStep inst (some (newFunc inst.Address syms))).2 ++
       pass2Go starts syms rest
        (visitStep inst (some (newFunc inst.Address syms))).2), ?_⟩
  rw [pass2Go, e1]
  simp only [e2]
  simp [List.append_assoc]

/-- Witness for C7: the open function holding the five-byte call at `0x100`
is closed with `EndAddr = 0x104` when the marked start `0x105` is reached. -/
theorem c7_close_witness :
    ∃ tail, pass2Go [0x105]
        [{ Name := "g", Address := 0x100 }, { Name := "h", Address := 0x105 }]
        [c7push] (some c7open) = { c7open with EndAddr := 0x104 } :: tail := by
  have := c7_close_at_start_minus_one [0x105]
    [{ Name := "g", Address := 0x100 }, { Name := "h", Address := 0x105 }]
    c7push [] c7open rfl rfl
  simpa [wrapSub1, c7push] using this

/-- Counterexample for C7 as stated: the function holding only the five-byte
call at `0x100` ends at `0x104`, not at the previous instruction's address
`0x100`. -/
theorem c7_close_counterexample :
    c7funcs.map (fun f => (f.StartAddr, f.EndAddr)) = [(0x100, 0x104), (0x105, 0x105)] ∧
    c7funcs.map (fun f => f.Instructions.map Instruction.Address) = [[0x100], [0x105]] ∧
    (0x104 : Nat) ≠ 0x100 := ⟨rfl, rfl, by decide⟩

/-- C8 (amended): for every successful decode (size not 0), `IsConditional`
is set exactly for the short Jcc opcodes `0x70`-`0x7F`, the long Jcc forms
`0F 80`-`0F 8F`, and JRCXZ (`0xE3`); the SETcc (`0F 90`-`0F 9F`) and CMOVcc
(`0F 40`-`0F 4F`) families decode with `IsConditional = false`, contrary to
the specification. -/
theorem c8_conditional_characterization (data : List Nat) (addr : Nat)
    (arch : String) (inst : Instruction) (sz : Nat)
    (h : EnhancedDecodeInstruction data addr arch = .ok (inst, sz)) (hsz : sz ≠ 0) :
    inst.IsConditional =
      condExpected data (scanPrefixes data (arch == "x86_64") 0 false).1 := by
  unfold EnhancedDecodeInstruction at h
  split at h
  · exact absurd (congrArg Prod.snd (Except.ok.inj h)).symm hsz
  · try simp only [] at h
    split at h
    · exact absurd (congrArg Prod.snd (Except.ok.inj h)).symm hsz
    · exact (decodeOpcode_props _ _ _ _ _ _ _ _ h hsz).1

/-- Witness for C8: the short `je` decoded from `74 05` carries
`IsConditional = true`, matching the characterization at opcode position 0. -/
theorem c8_conditional_witness :
    jeInst.IsConditional = true ∧
    jeInst.IsConditional = condExpected [0x74, 0x05] 0 :=
  ⟨rfl, c8_conditional_characterization [0x74, 0x05] 0x1000 "x86_64" jeInst 2 rfl
    (by decide)⟩

/-- Counterexample for C8 as stated: `0F 90 C0` decodes to `seto` (a SETcc)
with `IsConditional = false`. -/
theorem c8_setcc_counterexample :
    EnhancedDecodeInstruction [0x0F, 0x90, 0xC0] 0x1000 "x86_64" = .ok (setoInst, 3) ∧
    setoInst.Mnemonic = "seto" ∧ setoInst.IsConditional = false := ⟨rfl, rfl, rfl⟩

/-- C9 (amended): for every successful decode, the short Jcc (`0x70`-`0x7F`)
and `jmp short` (`0xEB`) forms record
`BranchTarget = (address + size + sign_extend(rel8)) mod 2^64` as specified,
while the LOOP/LOOPE/LOOPNE/JRCXZ family `0xE0`-`0xE3` records
`address + 2 + sign_extend(rel8)`: the two-byte unprefixed length is
hard-coded, so the specified equality holds for that family only when no
prefix precedes the opcode. -/
theorem c9_short_branch_targets (data : List Nat) (addr : Nat) (arch : String)
    (inst : Instruction) (sz : Nat)
    (h : EnhancedDecodeInstruction data addr arch = .ok (inst, sz)) (hsz : sz ≠ 0) :
    (((0x70 ≤ opcodeAt data arch ∧ opcodeAt data arch ≤ 0x7F) ∨
        opcodeAt data arch = 0xEB) →
      inst.BranchTarget =
        wrap64 ((addr : Int) + (sz : Int) + int8val (relByteAt data arch))) ∧
    ((0xE0 ≤ opcodeAt data arch ∧ opcodeAt data arch ≤ 0xE3) →
      inst.BranchTarget =
        wrap64 ((addr : Int) + 2 + int8val (relByteAt data arch))) := by
  unfold EnhancedDecodeInstruction at h
  split at h
  · exact absurd (congrArg Prod.snd (Except.ok.inj h)).symm hsz
  · try simp only [] at h
    split at h
    · exact absurd (congrArg Prod.snd (Except.ok.inj h)).symm hsz
    · exact ⟨(decodeOpcode_props _ _ _ _ _ _ _ _ h hsz).2.1,
             (decodeOpcode_props _ _ _ _ _ _ _ _ h hsz).2.2⟩

/-- Witness for C9: the `je` decoded from `74 05` at `0x1000` records
`0x1000 + 2 + 5 = 0x1007`. -/
theorem c9_branch_witness :
    jeInst.BranchTarget = wrap64 ((0x1000 : Int) + 2 + int8val 5) ∧
    jeInst.BranchTarget = 0x1007 :=
  ⟨(c9_short_branch_targets [0x74, 0x05] 0x1000 "x86_64" jeInst 2 rfl
      (by decide)).1 (by decide),
   rfl⟩

/-- Counterexample for C9 as stated: `66 E2 00` (`loop` with an operand-size
prefix, size 3) records target `0x1002 = addr + 2`, not
`addr + size + rel = 0x1003`. -/
theorem c9_loop_prefix_counterexample :
    EnhancedDecodeInstruction [0x66, 0xE2, 0x00] 0x1000 "x86_64" = .ok (loopPrefixed, 3) ∧
    loopPrefixed.BranchTarget = 0x1002 ∧
    wrap64 ((0x1000 : Int) + 3 + int8val 0) = 0x1003 := ⟨rfl, rfl, by decide⟩

/-- C10: `connectBlocks` starts from edge-free blocks and adds every edge
through `AddSuccessor`, which suppresses duplicate successors, appends the
back-reference, and suppresses duplicate predecessors; the resulting edge
lists are therefore symmetric (membership in one list mirrors the other) and
duplicate-free, for every block list. -/
theorem c10_edge_lists_invariant (bs : List BasicBlock) :
    GraphInv (connectBlocks bs) :=
  foldl_connect_inv bs (List.range bs.length) Graph.empty graphInv_empty

end Expeer
